import Mathlib

/-!
# Verification of the superCPE extraction and compliance engines

Shallow embedding of the Python source of the superCPE repository:
* `app/api/compliance.py` — reporting-period calculation and compliance evaluators,
* `app/utils/cpa_utils.py` — the generic compliance calculator,
* `app/api/certificate_upload.py` — certificate parsing, validation and upload flow,
* `app/api/shared/certificate_processing.py` — the shared date parser,
* `app/api/shared/filename_utils.py` — filename sanitization.

Python `datetime.date` values are modelled by a `Date` structure ordered
lexicographically (which is how Python compares dates); `datetime.timedelta`
day differences are modelled by a rata-die day count (`Date.toDays`).
Python `//` and `%` on integers are floor division and floor modulus; for the
positive divisors used by the source these agree with Lean's `Int` `/` and `%`
(Euclidean division), which we verify on samples below.
-/

namespace SuperCPE

/-- A calendar date, as Python's `datetime.date` (year, month, day).
Ordering between Python dates is lexicographic on (year, month, day). -/
structure Date where
  year : Int
  month : Nat
  day : Nat
deriving DecidableEq, Repr

/-- Python date comparison `a < b`: lexicographic on (year, month, day). -/
def Date.lt (a b : Date) : Prop :=
  a.year < b.year ∨ (a.year = b.year ∧
    (a.month < b.month ∨ (a.month = b.month ∧ a.day < b.day)))

/-- Python date comparison `a <= b`. -/
def Date.le (a b : Date) : Prop := Date.lt a b ∨ a = b

instance Date.instDecidableLt (a b : Date) : Decidable (Date.lt a b) := by
  unfold Date.lt; infer_instance

instance Date.instDecidableLe (a b : Date) : Decidable (Date.le a b) := by
  unfold Date.le; infer_instance

/-- Gregorian leap year, as Python's `calendar.isleap` /
`datetime`'s internal rule. -/
def isLeap (y : Int) : Bool := y % 4 = 0 ∧ (y % 100 ≠ 0 ∨ y % 400 = 0)

/-- Number of days in a month of a given year. -/
def daysInMonth (y : Int) (m : Nat) : Nat :=
  if m = 2 then (if isLeap y then 29 else 28)
  else if m = 4 ∨ m = 6 ∨ m = 9 ∨ m = 11 then 30
  else 31

/-- A structurally valid Python date: month in 1..12, day in
1..`daysInMonth` (Python's constructor enforces this). -/
def validDate (d : Date) : Prop :=
  1 ≤ d.month ∧ d.month ≤ 12 ∧ 1 ≤ d.day ∧ d.day ≤ daysInMonth d.year d.month

instance validDate.instDecidable (d : Date) : Decidable (validDate d) := by
  unfold validDate; infer_instance

/-- Zero-based month counter: `12 * year + (month - 1)`. -/
def Date.monthIndex (d : Date) : Int := 12 * d.year + ((d.month : Int) - 1)

/-- Calendar-month addition with end-of-month clamping, the semantics of
`date + relativedelta(months=n)` from `dateutil`: move `n` months and clamp
the day to the target month's length. -/
def Date.addMonths (d : Date) (n : Int) : Date :=
  let t : Int := 12 * d.year + ((d.month : Int) - 1) + n
  let y : Int := t / 12
  let m : Nat := (t % 12).toNat + 1
  { year := y, month := m, day := min d.day (daysInMonth y m) }

/-- The previous calendar day, the semantics of `date - timedelta(days=1)`
on a valid date. -/
def Date.pred (d : Date) : Date :=
  if 1 < d.day then { d with day := d.day - 1 }
  else if 1 < d.month then
    { year := d.year, month := d.month - 1, day := daysInMonth d.year (d.month - 1) }
  else { year := d.year - 1, month := 12, day := 31 }

/-- The next calendar day, the semantics of `date + timedelta(days=1)`
on a valid date. -/
def Date.succ (d : Date) : Date :=
  if d.day < daysInMonth d.year d.month then { d with day := d.day + 1 }
  else if d.month < 12 then { year := d.year, month := d.month + 1, day := 1 }
  else { year := d.year + 1, month := 1, day := 1 }

/-- Rata-die style day count (days since 1970-01-01), the standard
`days_from_civil` algorithm; `(a - b).days` in Python equals
`a.toDays - b.toDays` for valid dates. -/
def Date.toDays (d : Date) : Int :=
  let y : Int := if d.month ≤ 2 then d.year - 1 else d.year
  let era : Int := y / 400
  let yoe : Int := y - era * 400
  let mp : Int := ((d.month : Int) + 9) % 12
  let doy : Int := (153 * mp + 2) / 5 + (d.day : Int) - 1
  let doe : Int := yoe * 365 + yoe / 4 - yoe / 100 + doy
  era * 146097 + doe - 719468

-- Sanity samples for the embedding of Python arithmetic and dates.
example : (-7 : Int) / 2 = -4 ∧ (-7 : Int) % 2 = 1 := by decide
example : (Date.mk 2024 2 29).toDays - (Date.mk 2024 1 1).toDays = 59 := by decide
example : (Date.mk 2025 1 1).toDays - (Date.mk 2024 1 1).toDays = 366 := by decide
example : (Date.mk 2024 1 31).addMonths 1 = Date.mk 2024 2 29 := by decide
example : (Date.mk 2024 1 31).addMonths 2 = Date.mk 2024 3 31 := by decide

/-- The total month component `years * 12 + months` of dateutil's
`relativedelta(dt1, dt2)`.  dateutil starts from the raw month difference and
adjusts by at most one step so that (for `dt1 >= dt2`) `dt2` plus the result,
with clamping, does not exceed `dt1`; for `dt1 < dt2` it adjusts upward
symmetrically.  The loop in dateutil runs at most once here because the raw
difference lands in `dt1`'s month. -/
def relativedeltaMonths (dt1 dt2 : Date) : Int :=
  let raw : Int := 12 * (dt1.year - dt2.year) + ((dt1.month : Int) - (dt2.month : Int))
  if Date.lt dt1 dt2 then
    (if Date.lt (dt2.addMonths raw) dt1 then raw + 1 else raw)
  else
    (if Date.lt dt1 (dt2.addMonths raw) then raw - 1 else raw)

example : relativedeltaMonths (Date.mk 2024 3 30) (Date.mk 2024 1 31) = 1 := by decide
example : relativedeltaMonths (Date.mk 2024 12 20) (Date.mk 2025 1 15) = 0 := by decide
example : relativedeltaMonths (Date.mk 2024 6 15) (Date.mk 2025 6 15) = -12 := by decide

/-! ## Basic date lemmas -/

theorem daysInMonth_ge (y : Int) (m : Nat) : 28 ≤ daysInMonth y m := by
  unfold daysInMonth
  split <;> split <;> omega

theorem daysInMonth_le (y : Int) (m : Nat) : daysInMonth y m ≤ 31 := by
  unfold daysInMonth
  split
  · split <;> omega
  · split <;> omega

/-- Linear key strictly monotone with the lexicographic date order, for dates
with month in 1..12 and day in 1..31. -/
def Date.key (d : Date) : Int := 500 * d.year + 31 * (d.month : Int) + (d.day : Int)

theorem Date.eq_of_fields {a b : Date} (hy : a.year = b.year)
    (hm : a.month = b.month) (hd : a.day = b.day) : a = b := by
  cases a; cases b
  dsimp only at hy hm hd
  subst hy; subst hm; subst hd
  rfl

theorem key_lt_aux (y1 y2 : Int) (m1 d1 m2 d2 : Nat)
    (h1 : 1 ≤ m1) (h2 : m1 ≤ 12) (h3 : 1 ≤ d1) (h4 : d1 ≤ 31)
    (k1 : 1 ≤ m2) (k2 : m2 ≤ 12) (k3 : 1 ≤ d2) (k4 : d2 ≤ 31) :
    (y1 < y2 ∨ (y1 = y2 ∧ (m1 < m2 ∨ (m1 = m2 ∧ d1 < d2)))) ↔
    500 * y1 + 31 * (m1 : Int) + (d1 : Int) < 500 * y2 + 31 * (m2 : Int) + (d2 : Int) := by
  omega

theorem Date.lt_iff_key (a b : Date)
    (ha : 1 ≤ a.month ∧ a.month ≤ 12 ∧ 1 ≤ a.day ∧ a.day ≤ 31)
    (hb : 1 ≤ b.month ∧ b.month ≤ 12 ∧ 1 ≤ b.day ∧ b.day ≤ 31) :
    Date.lt a b ↔ Date.key a < Date.key b := by
  obtain ⟨a1, a2, a3⟩ := a
  obtain ⟨b1, b2, b3⟩ := b
  exact key_lt_aux a1 b1 a2 a3 b2 b3 ha.1 ha.2.1 ha.2.2.1 ha.2.2.2
    hb.1 hb.2.1 hb.2.2.1 hb.2.2.2

theorem Date.le_iff_key (a b : Date)
    (ha : 1 ≤ a.month ∧ a.month ≤ 12 ∧ 1 ≤ a.day ∧ a.day ≤ 31)
    (hb : 1 ≤ b.month ∧ b.month ≤ 12 ∧ 1 ≤ b.day ∧ b.day ≤ 31) :
    Date.le a b ↔ Date.key a ≤ Date.key b := by
  unfold Date.le
  rw [Date.lt_iff_key a b ha hb]
  constructor
  · rintro (h | rfl)
    · exact le_of_lt h
    · exact le_refl _
  · intro h
    rcases lt_or_eq_of_le h with h' | h'
    · exact Or.inl h'
    · right
      obtain ⟨a1, a2, a3⟩ := a
      obtain ⟨b1, b2, b3⟩ := b
      have H : 1 ≤ a2 ∧ a2 ≤ 12 ∧ 1 ≤ a3 ∧ a3 ≤ 31 := ha
      have K : 1 ≤ b2 ∧ b2 ≤ 12 ∧ 1 ≤ b3 ∧ b3 ≤ 31 := hb
      have h'' : 500 * a1 + 31 * (a2 : Int) + (a3 : Int)
          = 500 * b1 + 31 * (b2 : Int) + (b3 : Int) := h'
      have : a1 = b1 ∧ a2 = b2 ∧ a3 = b3 := by
        obtain ⟨H1, H2, H3, H4⟩ := H
        obtain ⟨K1, K2, K3, K4⟩ := K
        have hy : a1 = b1 := by omega
        subst hy
        have hm : a2 = b2 := by omega
        subst hm
        have hd : a3 = b3 := by omega
        exact ⟨rfl, rfl, hd⟩
      rw [Date.mk.injEq]
      exact this

theorem validDate_ranges (d : Date) (h : validDate d) :
    1 ≤ d.month ∧ d.month ≤ 12 ∧ 1 ≤ d.day ∧ d.day ≤ 31 := by
  obtain ⟨h1, h2, h3, h4⟩ := h
  exact ⟨h1, h2, h3, le_trans h4 (daysInMonth_le _ _)⟩

theorem Date.addMonths_monthIndex (d : Date) (n : Int) :
    (d.addMonths n).monthIndex = d.monthIndex + n := by
  unfold Date.addMonths Date.monthIndex
  simp only
  have h12 : (0 : Int) < 12 := by decide
  set t : Int := 12 * d.year + ((d.month : Int) - 1) + n with ht
  have hmod : 0 ≤ t % 12 := Int.emod_nonneg t (by decide)
  have hdiv : 12 * (t / 12) + t % 12 = t := Int.ediv_add_emod t 12
  have hcast : (((t % 12).toNat : Int)) = t % 12 := Int.toNat_of_nonneg hmod
  push_cast
  rw [hcast]
  omega

theorem Date.addMonths_month_range (d : Date) (n : Int) :
    1 ≤ (d.addMonths n).month ∧ (d.addMonths n).month ≤ 12 := by
  unfold Date.addMonths
  simp only
  set t : Int := 12 * d.year + ((d.month : Int) - 1) + n with ht
  have hmod : 0 ≤ t % 12 := Int.emod_nonneg t (by decide)
  have hlt : t % 12 < 12 := Int.emod_lt_of_pos t (by decide)
  omega

theorem Date.addMonths_valid (d : Date) (hv : validDate d) (n : Int) :
    validDate (d.addMonths n) := by
  have hr := Date.addMonths_month_range d n
  unfold validDate
  refine ⟨hr.1, hr.2, ?_, ?_⟩
  · unfold Date.addMonths at *
    simp only at *
    have := daysInMonth_ge
      ((12 * d.year + ((d.month : Int) - 1) + n) / 12)
      (((12 * d.year + ((d.month : Int) - 1) + n) % 12).toNat + 1)
    have hd1 : 1 ≤ d.day := hv.2.2.1
    omega
  · unfold Date.addMonths at *
    simp only at *
    omega

theorem Date.addMonths_day (d : Date) (n : Int) :
    (d.addMonths n).day
      = min d.day (daysInMonth (d.addMonths n).year (d.addMonths n).month) := rfl

theorem Date.eq_year_month_of_monthIndex (a b : Date)
    (ha : 1 ≤ a.month ∧ a.month ≤ 12) (hb : 1 ≤ b.month ∧ b.month ≤ 12)
    (h : a.monthIndex = b.monthIndex) : a.year = b.year ∧ a.month = b.month := by
  unfold Date.monthIndex at h
  constructor <;> omega

theorem Date.addMonths_zero (d : Date) (hv : validDate d) : d.addMonths 0 = d := by
  have hmi : (d.addMonths 0).monthIndex = d.monthIndex := by
    rw [Date.addMonths_monthIndex]; ring
  have hr := Date.addMonths_month_range d 0
  have hym := Date.eq_year_month_of_monthIndex (d.addMonths 0) d
    ⟨hr.1, hr.2⟩ ⟨hv.1, hv.2.1⟩ hmi
  refine Date.eq_of_fields hym.1 hym.2 ?_
  rw [Date.addMonths_day, hym.1, hym.2]
  exact min_eq_left hv.2.2.2

/-! ## More date lemmas: predecessor, successor -/

theorem daysInMonth_twelve (y : Int) : daysInMonth y 12 = 31 := by
  unfold daysInMonth
  norm_num

theorem pred_valid_aux (y : Int) (mo da : Nat) (h1 : 1 ≤ mo) (h2 : mo ≤ 12)
    (h3 : 1 ≤ da) (h4 : da ≤ daysInMonth y mo) :
    validDate (Date.pred ⟨y, mo, da⟩) := by
  unfold Date.pred
  dsimp only
  split_ifs with c1 c2
  · show 1 ≤ mo ∧ mo ≤ 12 ∧ 1 ≤ da - 1 ∧ da - 1 ≤ daysInMonth y mo
    exact ⟨h1, h2, by omega, by omega⟩
  · show 1 ≤ mo - 1 ∧ mo - 1 ≤ 12 ∧ 1 ≤ daysInMonth y (mo - 1) ∧
      daysInMonth y (mo - 1) ≤ daysInMonth y (mo - 1)
    refine ⟨by omega, by omega, ?_, le_refl _⟩
    have := daysInMonth_ge y (mo - 1)
    omega
  · show 1 ≤ 12 ∧ 12 ≤ 12 ∧ 1 ≤ 31 ∧ 31 ≤ daysInMonth (y - 1) 12
    refine ⟨by norm_num, by norm_num, by norm_num, ?_⟩
    rw [daysInMonth_twelve]

theorem Date.pred_valid (d : Date) (hv : validDate d) : validDate d.pred := by
  obtain ⟨y, mo, da⟩ := d
  exact pred_valid_aux y mo da hv.1 hv.2.1 hv.2.2.1 hv.2.2.2

theorem succ_pred_aux (y : Int) (mo da : Nat) (h1 : 1 ≤ mo) (h2 : mo ≤ 12)
    (h3 : 1 ≤ da) (h4 : da ≤ daysInMonth y mo) :
    (Date.pred ⟨y, mo, da⟩).succ = ⟨y, mo, da⟩ := by
  unfold Date.pred
  dsimp only
  split_ifs with c1 c2
  · unfold Date.succ
    dsimp only
    rw [if_pos (show da - 1 < daysInMonth y mo by omega)]
    exact Date.eq_of_fields rfl rfl (by dsimp only; omega)
  · unfold Date.succ
    dsimp only
    rw [if_neg (by omega : ¬ daysInMonth y (mo - 1) < daysInMonth y (mo - 1))]
    rw [if_pos (by omega : mo - 1 < 12)]
    exact Date.eq_of_fields rfl (by dsimp only; omega) (by dsimp only; omega)
  · have hm1 : mo = 1 := by omega
    have hd1 : da = 1 := by omega
    unfold Date.succ
    dsimp only
    rw [daysInMonth_twelve]
    rw [if_neg (by omega : ¬ (31 : Nat) < 31)]
    rw [if_neg (by omega : ¬ (12 : Nat) < 12)]
    exact Date.eq_of_fields (by dsimp only; omega) (by dsimp only; omega)
      (by dsimp only; omega)

theorem Date.succ_pred (d : Date) (hv : validDate d) : d.pred.succ = d := by
  obtain ⟨y, mo, da⟩ := d
  exact succ_pred_aux y mo da hv.1 hv.2.1 hv.2.2.1 hv.2.2.2

theorem pred_monthIndex_aux (y : Int) (mo da : Nat) (h1 : 1 ≤ mo) (h2 : mo ≤ 12)
    (h3 : 1 ≤ da) (h4 : da ≤ daysInMonth y mo) (h : da = 1) :
    (Date.pred ⟨y, mo, da⟩).monthIndex = (Date.mk y mo da).monthIndex - 1 ∧
      28 ≤ (Date.pred ⟨y, mo, da⟩).day := by
  unfold Date.pred Date.monthIndex
  dsimp only
  split_ifs with c1 c2
  · omega
  · constructor
    · push_cast
      omega
    · exact daysInMonth_ge _ _
  · have hm1 : mo = 1 := by omega
    constructor
    · push_cast
      omega
    · norm_num

theorem Date.pred_monthIndex_of_day_one (d : Date) (hv : validDate d) (h : d.day = 1) :
    d.pred.monthIndex = d.monthIndex - 1 ∧ 28 ≤ d.pred.day := by
  obtain ⟨y, mo, da⟩ := d
  exact pred_monthIndex_aux y mo da hv.1 hv.2.1 hv.2.2.1 hv.2.2.2 h

theorem key_of_monthIndex_lt_aux (y1 y2 : Int) (m1 d1 m2 d2 : Nat)
    (h1 : 1 ≤ m1) (h2 : m1 ≤ 12) (h3 : 1 ≤ d1) (h4 : d1 ≤ 31)
    (k1 : 1 ≤ m2) (k2 : m2 ≤ 12) (k3 : 1 ≤ d2) (k4 : d2 ≤ 31)
    (h : 12 * y1 + (m1 : Int) - 1 < 12 * y2 + (m2 : Int) - 1) :
    500 * y1 + 31 * (m1 : Int) + (d1 : Int) < 500 * y2 + 31 * (m2 : Int) + (d2 : Int) := by
  omega

theorem Date.lt_of_monthIndex_lt (a b : Date) (hva : validDate a) (hvb : validDate b)
    (h : a.monthIndex < b.monthIndex) : Date.lt a b := by
  have ha := validDate_ranges a hva
  have hb := validDate_ranges b hvb
  rw [Date.lt_iff_key a b ha hb]
  have h' : 12 * a.year + (a.month : Int) - 1 < 12 * b.year + (b.month : Int) - 1 := by
    unfold Date.monthIndex at h
    omega
  exact key_of_monthIndex_lt_aux a.year b.year a.month a.day b.month b.day
    ha.1 ha.2.1 ha.2.2.1 ha.2.2.2 hb.1 hb.2.1 hb.2.2.1 hb.2.2.2 h'

/-- For a valid date `d` and `m ≥ 1`, the day before `d + m months` is
strictly after `d`; this is the `period_end > period_start` invariant. -/
theorem Date.lt_pred_addMonths (d : Date) (hv : validDate d) (m : Nat) (hm : 1 ≤ m) :
    Date.lt d ((d.addMonths m).pred) := by
  set X := d.addMonths (m : Int) with hX
  have hvX : validDate X := Date.addMonths_valid d hv (m : Int)
  have hmi : X.monthIndex = d.monthIndex + m := Date.addMonths_monthIndex d (m : Int)
  by_cases h1 : 1 < X.day
  · have hpred : X.pred = { X with day := X.day - 1 } := by
      unfold Date.pred
      rw [if_pos h1]
    have hvp : validDate X.pred := Date.pred_valid X hvX
    apply Date.lt_of_monthIndex_lt d X.pred hv hvp
    rw [hpred]
    show d.monthIndex < X.monthIndex
    omega
  · have hd1 : X.day = 1 := by
      obtain ⟨_, _, p3, _⟩ := hvX
      omega
    have hvp : validDate X.pred := Date.pred_valid X hvX
    obtain ⟨hpi, hpd⟩ := Date.pred_monthIndex_of_day_one X hvX hd1
    rcases Nat.lt_or_ge 1 m with hm2 | hm1'
    · apply Date.lt_of_monthIndex_lt d X.pred hv hvp
      rw [hpi, hmi]
      omega
    · -- m = 1: the period is one month; X.pred is the last day of d's month
      have hmeq : m = 1 := by omega
      have hpieq : X.pred.monthIndex = d.monthIndex := by
        rw [hpi, hmi, hmeq]
        push_cast
        ring
      have hym := Date.eq_year_month_of_monthIndex X.pred d
        ⟨(Date.pred_valid X hvX).1, (Date.pred_valid X hvX).2.1⟩ ⟨hv.1, hv.2.1⟩ hpieq
      -- d.day = 1 because X.day = min d.day (daysInMonth ...) = 1
      have hday : d.day = 1 := by
        have hXd : X.day = min d.day (daysInMonth X.year X.month) := Date.addMonths_day d (m : Int)
        have := daysInMonth_ge X.year X.month
        omega
      right
      refine ⟨hym.1.symm, Or.inr ⟨hym.2.symm, ?_⟩⟩
      omega

/-! ## Reporting-period calculation (`app/api/compliance.py`) -/

/-- The relevant columns of the `CPAJurisdiction` model (`app/models.py`);
nullable integer/string columns are `Option`s. -/
structure CPAJurisdiction where
  code : String
  general_hours_required : Option ℚ
  ethics_hours_required : Option ℚ
  reporting_period_type : Option String
  reporting_period_months : Option Nat
deriving DecidableEq, Repr

/-- Python `x or default` for a nullable integer: `None` and `0` are falsy. -/
def pyOrNat (x : Option Nat) (dflt : Nat) : Nat :=
  match x with
  | none => dflt
  | some v => if v = 0 then dflt else v

/-- Python `x or default` for a nullable string: `None` and `""` are falsy. -/
def pyOrStr (x : Option String) (dflt : String) : String :=
  match x with
  | none => dflt
  | some s => if s = "" then dflt else s

/-- Python `x or 0` for a nullable rational column. -/
def pyOrZero (x : Option ℚ) : ℚ :=
  match x with
  | none => 0
  | some v => v

/-- The `ReportingPeriod` response model of `app/api/compliance.py`.
`days_remaining` is an integer day count. -/
structure ReportingPeriod where
  period_start : Date
  period_end : Date
  period_type : String
  renewal_date : Date
  days_remaining : Int
deriving DecidableEq, Repr

/-- Python `calculate_current_period` (`app/api/compliance.py`, lines 88-118).
`relativedelta(check_date, license_date).months + years * 12` is
`relativedeltaMonths`; Python `//` on these operands is `Int` `/` here
(the divisor is positive); `- timedelta(days=1)` is `Date.pred`; and
`(renewal_date - check_date).days` is the `toDays` difference. -/
def calculate_current_period (jurisdiction : CPAJurisdiction)
    (license_date check_date : Date) : ReportingPeriod :=
  let period_months : Nat := pyOrNat jurisdiction.reporting_period_months 24
  let months_since_license : Int := relativedeltaMonths check_date license_date
  let current_period_num : Int := months_since_license / (period_months : Int) + 1
  let period_start := license_date.addMonths ((current_period_num - 1) * period_months)
  let period_end := (period_start.addMonths (period_months : Int)).pred
  let renewal_date := period_end
  let days_remaining : Int := renewal_date.toDays - check_date.toDays
  { period_start := period_start
    period_end := period_end
    period_type := pyOrStr jurisdiction.reporting_period_type "biennial"
    renewal_date := renewal_date
    days_remaining := max 0 days_remaining }

theorem key_le_monthIndex_aux (y1 y2 : Int) (m1 d1 m2 d2 : Nat)
    (h1 : 1 ≤ m1) (h2 : m1 ≤ 12) (h3 : 1 ≤ d1) (h4 : d1 ≤ 31)
    (k1 : 1 ≤ m2) (k2 : m2 ≤ 12) (k3 : 1 ≤ d2) (k4 : d2 ≤ 31)
    (h : 500 * y1 + 31 * (m1 : Int) + (d1 : Int) ≤ 500 * y2 + 31 * (m2 : Int) + (d2 : Int)) :
    12 * y1 + (m1 : Int) - 1 ≤ 12 * y2 + (m2 : Int) - 1 := by
  omega

theorem Date.monthIndex_le_of_le (a b : Date) (hva : validDate a) (hvb : validDate b)
    (h : Date.le a b) : a.monthIndex ≤ b.monthIndex := by
  have ha := validDate_ranges a hva
  have hb := validDate_ranges b hvb
  rw [Date.le_iff_key a b ha hb] at h
  have := key_le_monthIndex_aux a.year b.year a.month a.day b.month b.day
    ha.1 ha.2.1 ha.2.2.1 ha.2.2.2 hb.1 hb.2.1 hb.2.2.1 hb.2.2.2 h
  unfold Date.monthIndex
  omega

theorem Date.not_lt_of_le (a b : Date) (hva : validDate a) (hvb : validDate b)
    (h : Date.le a b) : ¬ Date.lt b a := by
  have ha := validDate_ranges a hva
  have hb := validDate_ranges b hvb
  rw [Date.le_iff_key a b ha hb] at h
  rw [Date.lt_iff_key b a hb ha]
  omega

/-- The raw month difference in `relativedeltaMonths` is the difference of
month indices. -/
theorem relativedeltaMonths_raw (dt1 dt2 : Date) :
    12 * (dt1.year - dt2.year) + ((dt1.month : Int) - (dt2.month : Int))
      = dt1.monthIndex - dt2.monthIndex := by
  unfold Date.monthIndex
  ring

theorem relativedeltaMonths_nonneg (dt1 dt2 : Date)
    (hv1 : validDate dt1) (hv2 : validDate dt2) (h : Date.le dt2 dt1) :
    0 ≤ relativedeltaMonths dt1 dt2 := by
  unfold relativedeltaMonths
  have hraw : 0 ≤ 12 * (dt1.year - dt2.year) + ((dt1.month : Int) - (dt2.month : Int)) := by
    rw [relativedeltaMonths_raw]
    have := Date.monthIndex_le_of_le dt2 dt1 hv2 hv1 h
    omega
  rw [if_neg (Date.not_lt_of_le dt2 dt1 hv2 hv1 h)]
  split_ifs with c
  · -- one decrement: the raw difference must then be at least 1
    rcases eq_or_lt_of_le hraw with h0 | h1
    · exfalso
      rw [← h0] at c
      rw [Date.addMonths_zero dt2 hv2] at c
      exact Date.not_lt_of_le dt2 dt1 hv2 hv1 h c
    · omega
  · exact hraw

/-- The defining equations of a "normally computed" reporting period, as the
spec states them: `start = anchor + periodIndex * months` with
`periodIndex = floor(elapsedMonths / months)`, `end = start + months − 1 day`
(so `end + 1 day = start + months` and `end > start`), `renewalDate = end`,
and `daysRemaining = max(0, end − asOf)` in days (hence nonnegative). -/
def periodEquations (m : Nat) (license_date check_date : Date)
    (p : ReportingPeriod) : Prop :=
  p.period_start
      = license_date.addMonths
          (relativedeltaMonths check_date license_date / (m : Int) * m) ∧
  p.period_end = (p.period_start.addMonths (m : Int)).pred ∧
  p.period_end.succ = p.period_start.addMonths (m : Int) ∧
  Date.lt p.period_start p.period_end ∧
  p.renewal_date = p.period_end ∧
  p.days_remaining = max 0 (p.period_end.toDays - check_date.toDays) ∧
  0 ≤ p.days_remaining

/-- The function `calculate_current_period` always returns a period satisfying the
defining equations, whatever the relationship of anchor and as-of date:
the function performs no anchor validation. -/
theorem calculate_current_period_equations (jurisdiction : CPAJurisdiction)
    (license_date check_date : Date) (m : Nat)
    (hm : jurisdiction.reporting_period_months = some m) (hm1 : 1 ≤ m)
    (hva : validDate license_date) :
    periodEquations m license_date check_date
      (calculate_current_period jurisdiction license_date check_date) := by
  have hpm : pyOrNat jurisdiction.reporting_period_months 24 = m := by
    rw [hm]
    show (if m = 0 then 24 else m) = m
    rw [if_neg (by omega)]
  have harg : (relativedeltaMonths check_date license_date / (m : Int) + 1 - 1) * m
      = relativedeltaMonths check_date license_date / (m : Int) * m := by
    ring
  unfold calculate_current_period periodEquations
  dsimp only
  rw [hpm, harg]
  set S : Date := license_date.addMonths
    (relativedeltaMonths check_date license_date / (m : Int) * (m : Int)) with hS
  have hvS : validDate S := Date.addMonths_valid license_date hva _
  have hvSm : validDate (S.addMonths (m : Int)) := Date.addMonths_valid S hvS _
  refine ⟨rfl, rfl, ?_, ?_, rfl, rfl, le_max_left _ _⟩
  · exact Date.succ_pred _ hvSm
  · exact Date.lt_pred_addMonths S hvS m hm1

/-- C1: for a jurisdiction rule with `reportingPeriodMonths = m ≥ 1` and
anchor ≤ as-of (both valid dates), `calculate_current_period` returns the
period described by the spec: `start = anchor + floor(elapsed/m) * m` months
(`elapsed = relativedeltaMonths ≥ 0` whole calendar months),
`end = start + m months − 1 day` (hence `end + 1 day = start + m months` and
`end > start`), `renewalDate = end`, and
`daysRemaining = max(0, end − asOf) ≥ 0` in days. -/
theorem claim_C1_current_period_contract (jurisdiction : CPAJurisdiction)
    (license_date check_date : Date) (m : Nat)
    (hm : jurisdiction.reporting_period_months = some m) (hm1 : 1 ≤ m)
    (hva : validDate license_date) (hvc : validDate check_date)
    (hle : Date.le license_date check_date) :
    ∀ p, p = calculate_current_period jurisdiction license_date check_date →
      0 ≤ relativedeltaMonths check_date license_date ∧
      periodEquations m license_date check_date p := by
  intro p hp
  subst hp
  exact ⟨relativedeltaMonths_nonneg check_date license_date hvc hva hle,
    calculate_current_period_equations jurisdiction license_date check_date m hm hm1 hva⟩

/-- The New Hampshire jurisdiction configuration (triennial, 120 general
hours, 4 ethics hours). -/
def nhJurisdiction : CPAJurisdiction :=
  { code := "NH", general_hours_required := some 120, ethics_hours_required := some 4
    reporting_period_type := some "triennial", reporting_period_months := some 36 }

theorem claim_C1_current_period_contract_witness :
    0 ≤ relativedeltaMonths ⟨2023, 6, 15⟩ ⟨2020, 1, 1⟩ ∧
    periodEquations 36 ⟨2020, 1, 1⟩ ⟨2023, 6, 15⟩
      (calculate_current_period nhJurisdiction ⟨2020, 1, 1⟩ ⟨2023, 6, 15⟩) :=
  claim_C1_current_period_contract nhJurisdiction ⟨2020, 1, 1⟩ ⟨2023, 6, 15⟩ 36
    rfl (by norm_num) (by decide) (by decide) (by decide) _ rfl

/-- A biennial jurisdiction configuration used for concrete evaluations. -/
def maJurisdiction : CPAJurisdiction :=
  { code := "MA", general_hours_required := some 80, ethics_hours_required := some 4
    reporting_period_type := some "biennial", reporting_period_months := some 24 }

/-- C7 counterexample: with the anchor date 2025-06-15 strictly after the
as-of date 2024-06-15, `calculate_current_period` does not fail with any
`InvalidAnchor` error (no such check exists in the source); it returns a
normally computed reporting period — here one that starts two years before
the anchor date. -/
theorem claim_C7_counterexample :
    Date.lt ⟨2024, 6, 15⟩ ⟨2025, 6, 15⟩ ∧
    calculate_current_period maJurisdiction ⟨2025, 6, 15⟩ ⟨2024, 6, 15⟩ =
      { period_start := ⟨2023, 6, 15⟩, period_end := ⟨2025, 6, 14⟩,
        period_type := "biennial", renewal_date := ⟨2025, 6, 14⟩,
        days_remaining := 364 } := by
  constructor
  · decide
  · decide

/-- C7 (amended): `calculate_current_period` performs no anchor validation;
for `anchorDate > asOf` it still returns the normally computed period given
by the same defining equations (with a negative elapsed-month count). -/
theorem claim_C7_no_anchor_validation (jurisdiction : CPAJurisdiction)
    (license_date check_date : Date) (m : Nat)
    (hm : jurisdiction.reporting_period_months = some m) (hm1 : 1 ≤ m)
    (hva : validDate license_date)
    (hgt : Date.lt check_date license_date) :
    ∀ p, p = calculate_current_period jurisdiction license_date check_date →
      periodEquations m license_date check_date p := by
  intro p hp
  subst hp
  exact calculate_current_period_equations jurisdiction license_date check_date m hm hm1 hva

theorem claim_C7_no_anchor_validation_witness :
    periodEquations 24 ⟨2025, 6, 15⟩ ⟨2024, 6, 15⟩
      (calculate_current_period maJurisdiction ⟨2025, 6, 15⟩ ⟨2024, 6, 15⟩) :=
  claim_C7_no_anchor_validation maJurisdiction ⟨2025, 6, 15⟩ ⟨2024, 6, 15⟩ 24
    rfl (by norm_num) (by decide) (by decide) _ rfl

/-! ## CPE records and the NH compliance evaluator
(`calculate_nh_compliance_detailed`, `app/api/compliance.py` lines 121-250) -/

/-- The columns of the `CPERecord` model (`app/models.py`) consumed by the
compliance evaluators: `cpe_credits` (non-null decimal, modelled as `ℚ`),
`completion_date` (non-null date), `field_of_study` (nullable string) and
`is_ethics` (boolean). -/
structure CPERecord where
  cpe_credits : ℚ
  completion_date : Date
  field_of_study : Option String
  is_ethics : Bool
deriving DecidableEq, Repr

/-- ASCII lower-casing, as Python `str.lower()` on the ASCII strings used by
the evaluators. -/
def lowerStr (s : String) : String := ⟨s.data.map Char.toLower⟩

/-- Python `needle in hay` substring containment. -/
def strContains (hay needle : String) : Bool := decide (needle.data <:+: hay.data)

/-- Python `record.cpe_credits or 0`: the column is non-null, and Python's `or 0`
maps the value `0` to `0`, so the sum is the plain sum of credits. -/
def sumCredits (records : List CPERecord) : ℚ :=
  (records.map (fun r => r.cpe_credits)).sum

/-- The list-comprehension filter `[r for r in records if lo <= r.completion_date <= hi]`. -/
def recordsInWindow (records : List CPERecord) (lo hi : Date) : List CPERecord :=
  records.filter (fun r =>
    decide (Date.le lo r.completion_date) && decide (Date.le r.completion_date hi))

/-- The NH ethics keyword list of `calculate_nh_compliance_detailed`. -/
def nhEthicsKeywords : List String :=
  ["ethics", "professional responsibility", "professional conduct",
   "conduct", "responsibility"]

/-- Python `record.field_of_study and any(keyword in record.field_of_study.lower() ...)`. -/
def isNHEthicsRecord (r : CPERecord) : Bool :=
  match r.field_of_study with
  | none => false
  | some fos => nhEthicsKeywords.any (fun kw => strContains (lowerStr fos) kw)

/-- Python `range(a, b + 1)`: the integers `a, a+1, …, b` (empty if `b < a`). -/
def intRange (a b : Int) : List Int :=
  (List.range (b + 1 - a).toNat).map (fun (i : Nat) => a + (i : Int))

example : intRange 2020 2022 = [2020, 2021, 2022] := by decide
example : intRange 2022 2020 = [] := by decide

/-- One entry of the `annual_compliance` list built by
`calculate_nh_compliance_detailed`. -/
structure AnnualComplianceEntry where
  year : Int
  hours_completed : ℚ
  hours_required : ℚ
  is_compliant : Bool
  deficit : ℚ
  records_count : Nat
deriving DecidableEq, Repr

/-- A deficit line of the NH evaluator.  The source renders these as
f-strings ("Need {x:.1f} more total hours", "Need {x:.1f} more ethics
hours", "Need {x:.1f} more hours for {year}"); here each line is kept as
a structured value carrying the same data in the same list position.  The
`recommendations` list of the source is a one-to-one imperative rephrasing
of the same lines and is not modelled separately. -/
inductive Deficit where
  | totalHours (amount : ℚ)
  | ethicsHours (amount : ℚ)
  | yearMinimum (year : Int) (amount : ℚ)
deriving DecidableEq, Repr

/-- The dictionary returned by `calculate_nh_compliance_detailed`
(`compliance_breakdown` flattened into the three boolean fields). -/
structure NHComplianceResult where
  overall_compliant : Bool
  status : String
  total_hours : ℚ
  ethics_hours : ℚ
  annual_compliance : List AnnualComplianceEntry
  deficits : List Deficit
  total_requirement_met : Bool
  ethics_requirement_met : Bool
  annual_requirements_met : Bool
deriving DecidableEq, Repr

/-- Python `calculate_nh_compliance_detailed` (`app/api/compliance.py` lines
121-250).  `date.today()` is passed in as `today`; the unused
`license_date` parameter of the source is dropped.  NH requires 120 total
hours and 4 ethics hours per triennial, and 20 hours in each calendar year
from the period's first year to `min(period_end.year, today.year)`; the
current year is counted only up to `today`. -/
def calculate_nh_compliance_detailed (cpe_records : List CPERecord)
    (current_period : ReportingPeriod) (today : Date) : NHComplianceResult :=
  let period_records := recordsInWindow cpe_records current_period.period_start today
  let total_hours : ℚ := sumCredits period_records
  let ethics_hours : ℚ := sumCredits (period_records.filter isNHEthicsRecord)
  let current_year := current_period.period_start.year
  let end_year := min current_period.period_end.year today.year
  let annual_compliance : List AnnualComplianceEntry :=
    (intRange current_year end_year).map (fun year =>
      let year_start : Date := ⟨year, 1, 1⟩
      let year_end : Date := if year = today.year then today else ⟨year, 12, 31⟩
      let year_records := recordsInWindow period_records year_start year_end
      let year_hours : ℚ := sumCredits year_records
      { year := year, hours_completed := year_hours, hours_required := 20
        is_compliant := decide (20 ≤ year_hours), deficit := max 0 (20 - year_hours)
        records_count := year_records.length })
  let total_compliant := decide (120 ≤ total_hours)
  let ethics_compliant := decide (4 ≤ ethics_hours)
  let annual_compliant := annual_compliance.all (fun e => e.is_compliant)
  let overall_compliant := total_compliant && ethics_compliant && annual_compliant
  let deficits : List Deficit :=
    (if total_compliant then [] else [Deficit.totalHours (120 - total_hours)]) ++
    (if ethics_compliant then [] else [Deficit.ethicsHours (4 - ethics_hours)]) ++
    (if annual_compliant then []
     else (annual_compliance.filter (fun e => !e.is_compliant)).map
       (fun e => Deficit.yearMinimum e.year e.deficit))
  let status := if overall_compliant then "Compliant"
    else if 96 ≤ total_hours then "At Risk" else "Non-Compliant"
  { overall_compliant := overall_compliant, status := status
    total_hours := total_hours, ethics_hours := ethics_hours
    annual_compliance := annual_compliance, deficits := deficits
    total_requirement_met := total_compliant
    ethics_requirement_met := ethics_compliant
    annual_requirements_met := annual_compliant }

theorem intRange_pairwise (a b : Int) : (intRange a b).Pairwise (· < ·) := by
  unfold intRange
  simp only [List.pairwise_map]
  refine (List.pairwise_lt_range _).imp ?_
  intro i j h
  show a + (i : Int) < a + (j : Int)
  omega

theorem deficits_shape (tc ec : Prop) [Decidable tc] [Decidable ec]
    (A : List AnnualComplianceEntry) (dt de : Deficit)
    (g : AnnualComplianceEntry → Deficit) :
    ((if decide tc then ([] : List Deficit) else [dt]) ++
      (if decide ec then ([] : List Deficit) else [de]) ++
      (if A.all (fun e => e.is_compliant) then ([] : List Deficit)
       else (A.filter (fun e => !e.is_compliant)).map g))
    = (if tc then ([] : List Deficit) else [dt]) ++
      (if ec then ([] : List Deficit) else [de]) ++
      (A.filter (fun e => !e.is_compliant)).map g := by
  by_cases h3 : A.all (fun e => e.is_compliant) = true
  · have hnil : A.filter (fun e => !e.is_compliant) = [] := by
      rw [List.filter_eq_nil_iff]
      intro e he
      rw [List.all_eq_true] at h3
      simp [h3 e he]
    by_cases h1 : tc <;> by_cases h2 : ec <;> simp [h1, h2, h3, hnil]
  · by_cases h1 : tc <;> by_cases h2 : ec <;> simp [h1, h2, h3]

/-- The reporting period of the C2 scenario: the triennial 2020-01-01 to
2022-12-31. -/
def nhScenarioPeriod : ReportingPeriod :=
  { period_start := ⟨2020, 1, 1⟩, period_end := ⟨2022, 12, 31⟩
    period_type := "triennial", renewal_date := ⟨2022, 12, 31⟩
    days_remaining := 0 }

/-- The record set of the C2 scenario: 130 total hours, 5 ethics hours,
but only 15 hours in 2021 (the second year of the period). -/
def nhScenarioRecords : List CPERecord :=
  [ { cpe_credits := 55, completion_date := ⟨2020, 5, 1⟩
      field_of_study := some "Taxes", is_ethics := false }
  , { cpe_credits := 5, completion_date := ⟨2020, 8, 1⟩
      field_of_study := some "Ethics", is_ethics := true }
  , { cpe_credits := 15, completion_date := ⟨2021, 6, 1⟩
      field_of_study := some "Accounting", is_ethics := false }
  , { cpe_credits := 55, completion_date := ⟨2022, 6, 1⟩
      field_of_study := some "Auditing", is_ethics := false } ]

/-- C2: the NH evaluator (120 h / 3 years, 4 ethics h, 20 h per year) is
overall-compliant exactly when the total-hours, ethics and every per-year
minimum are met; deficits are listed total first, then ethics, then the
non-compliant years, and the annual entries are in strictly increasing
(chronological) year order.  On the scenario record set (130 total hours,
5 ethics hours, only 15 hours in 2021) it reports non-compliance with
exactly the 2021 deficit of 5 hours. -/
theorem claim_C2_nh_triennial_annual_minimum :
    (∀ (records : List CPERecord) (period : ReportingPeriod) (today : Date)
        (res : NHComplianceResult),
      res = calculate_nh_compliance_detailed records period today →
        ((res.overall_compliant = true ↔
          (120 ≤ res.total_hours ∧ 4 ≤ res.ethics_hours ∧
            ∀ e ∈ res.annual_compliance, e.is_compliant = true)) ∧
        res.deficits =
          (if 120 ≤ res.total_hours then [] else [Deficit.totalHours (120 - res.total_hours)]) ++
          (if 4 ≤ res.ethics_hours then [] else [Deficit.ethicsHours (4 - res.ethics_hours)]) ++
          (res.annual_compliance.filter (fun e => !e.is_compliant)).map
            (fun e => Deficit.yearMinimum e.year e.deficit) ∧
        res.annual_compliance.Pairwise (fun e f => e.year < f.year))) ∧
    (calculate_nh_compliance_detailed nhScenarioRecords nhScenarioPeriod
      ⟨2023, 6, 15⟩).total_hours = 130 ∧
    (calculate_nh_compliance_detailed nhScenarioRecords nhScenarioPeriod
      ⟨2023, 6, 15⟩).ethics_hours = 5 ∧
    (calculate_nh_compliance_detailed nhScenarioRecords nhScenarioPeriod
      ⟨2023, 6, 15⟩).overall_compliant = false ∧
    (calculate_nh_compliance_detailed nhScenarioRecords nhScenarioPeriod
      ⟨2023, 6, 15⟩).deficits = [Deficit.yearMinimum 2021 5] := by
  have e1 : isNHEthicsRecord
      { cpe_credits := 55, completion_date := ⟨2020, 5, 1⟩,
        field_of_study := some "Taxes", is_ethics := false } = false := by decide
  have e2 : isNHEthicsRecord
      { cpe_credits := 5, completion_date := ⟨2020, 8, 1⟩,
        field_of_study := some "Ethics", is_ethics := true } = true := by decide
  have e3 : isNHEthicsRecord
      { cpe_credits := 15, completion_date := ⟨2021, 6, 1⟩,
        field_of_study := some "Accounting", is_ethics := false } = false := by decide
  have e4 : isNHEthicsRecord
      { cpe_credits := 55, completion_date := ⟨2022, 6, 1⟩,
        field_of_study := some "Auditing", is_ethics := false } = false := by decide
  have hr : intRange 2020 2022 = [2020, 2021, 2022] := by decide
  refine ⟨?_,
    by norm_num [calculate_nh_compliance_detailed, sumCredits, recordsInWindow,
      nhScenarioRecords, nhScenarioPeriod, List.filter_cons, Bool.and_eq_true,
      decide_eq_true_eq, Date.le, Date.lt, Date.mk.injEq, e1, e2, e3, e4, hr],
    by norm_num [calculate_nh_compliance_detailed, sumCredits, recordsInWindow,
      nhScenarioRecords, nhScenarioPeriod, List.filter_cons, Bool.and_eq_true,
      decide_eq_true_eq, Date.le, Date.lt, Date.mk.injEq, e1, e2, e3, e4, hr],
    by norm_num [calculate_nh_compliance_detailed, sumCredits, recordsInWindow,
      nhScenarioRecords, nhScenarioPeriod, List.filter_cons, Bool.and_eq_true,
      decide_eq_true_eq, Date.le, Date.lt, Date.mk.injEq, e1, e2, e3, e4, hr],
    by norm_num [calculate_nh_compliance_detailed, sumCredits, recordsInWindow,
      nhScenarioRecords, nhScenarioPeriod, List.filter_cons, Bool.and_eq_true,
      decide_eq_true_eq, Date.le, Date.lt, Date.mk.injEq, e1, e2, e3, e4, hr]⟩
  intro records period today res hres
  subst hres
  refine ⟨?_, ?_, ?_⟩
  · show (decide (120 ≤ (calculate_nh_compliance_detailed records period today).total_hours) &&
        decide (4 ≤ (calculate_nh_compliance_detailed records period today).ethics_hours) &&
        (calculate_nh_compliance_detailed records period today).annual_compliance.all
          (fun e => e.is_compliant)) = true ↔ _
    simp [Bool.and_eq_true, decide_eq_true_eq, List.all_eq_true, and_assoc]
  · calc (calculate_nh_compliance_detailed records period today).deficits
        = (if decide (120 ≤ (calculate_nh_compliance_detailed records period today).total_hours)
             then ([] : List Deficit)
             else [Deficit.totalHours
               (120 - (calculate_nh_compliance_detailed records period today).total_hours)]) ++
          (if decide (4 ≤ (calculate_nh_compliance_detailed records period today).ethics_hours)
             then ([] : List Deficit)
             else [Deficit.ethicsHours
               (4 - (calculate_nh_compliance_detailed records period today).ethics_hours)]) ++
          (if (calculate_nh_compliance_detailed records period today).annual_compliance.all
              (fun e => e.is_compliant) then ([] : List Deficit)
           else ((calculate_nh_compliance_detailed records period today).annual_compliance.filter
              (fun e => !e.is_compliant)).map
                (fun e => Deficit.yearMinimum e.year e.deficit)) := rfl
      _ = _ := deficits_shape _ _ _ _ _ _
  · show ((intRange period.period_start.year
        (min period.period_end.year today.year)).map _).Pairwise _
    rw [List.pairwise_map]
    refine (intRange_pairwise _ _).imp ?_
    intro i j h
    exact h

/-! ## Generic compliance evaluators (C3)
`calculate_compliance_status_enhanced` (`app/api/compliance.py` lines 253-329)
and `CPAComplianceCalculator.calculate_compliance` (`app/utils/cpa_utils.py`
lines 21-92) -/

/-- The `QuickComplianceStatus` response model (`app/api/compliance.py`).
The `next_action` message string is not modelled. -/
structure QuickComplianceStatus where
  is_compliant : Bool
  status : String
  total_hours_required : ℚ
  total_hours_completed : ℚ
  compliance_percentage : ℚ
  days_until_renewal : Int
deriving DecidableEq, Repr

/-- Python `calculate_compliance_status_enhanced`: NH dispatches to the detailed
evaluator; every other jurisdiction uses the simpler logic, which compares
only the total hours in the window against `general_hours_required or 0`
(no ethics check).  The unused `license_date` parameter of the source is
dropped; `date.today()` is passed as `today`. -/
def calculate_compliance_status_enhanced (jurisdiction : CPAJurisdiction)
    (cpe_records : List CPERecord) (current_period : ReportingPeriod)
    (today : Date) : QuickComplianceStatus :=
  if jurisdiction.code = "NH" then
    let nh_result := calculate_nh_compliance_detailed cpe_records current_period today
    { is_compliant := nh_result.overall_compliant
      status := nh_result.status
      total_hours_required := 120
      total_hours_completed := nh_result.total_hours
      compliance_percentage := min 100 (nh_result.total_hours / 120 * 100)
      days_until_renewal := current_period.days_remaining }
  else
    let total_hours : ℚ := sumCredits
      (recordsInWindow cpe_records current_period.period_start current_period.period_end)
    let hours_required : ℚ := pyOrZero jurisdiction.general_hours_required
    let is_compliant := decide (hours_required ≤ total_hours)
    let compliance_percentage : ℚ :=
      if 0 < hours_required then total_hours / hours_required * 100 else 100
    let status := if is_compliant then "Compliant"
      else if 80 ≤ compliance_percentage then "At Risk" else "Non-Compliant"
    { is_compliant := is_compliant
      status := status
      total_hours_required := hours_required
      total_hours_completed := total_hours
      compliance_percentage := min 100 compliance_percentage
      days_until_renewal := current_period.days_remaining }

/-- The `ComplianceStatusData` schema populated by
`CPAComplianceCalculator.calculate_compliance`. -/
structure ComplianceStatusData where
  is_compliant : Bool
  total_hours_completed : ℚ
  total_hours_required : ℚ
  hours_needed : ℚ
  ethics_hours_completed : ℚ
  ethics_hours_required : ℚ
  ethics_hours_needed : ℚ
  next_renewal_date : Option Date
  days_until_renewal : Option Int
  compliance_percentage : ℚ
deriving DecidableEq, Repr

/-- The pure core of `CPAComplianceCalculator.calculate_compliance`
(`app/utils/cpa_utils.py` lines 21-92).  The database query filter
`period.start <= completion_date <= period.end` is the list filter; the
jurisdiction's (non-null) hour columns are passed as values — the source
reads them directly and would raise on NULL, and divides by
`general_hours_required`, which must be positive for the percentage to be
defined (Python raises `ZeroDivisionError` at zero; `ℚ` division by zero
is not used under that hypothesis). -/
def cpa_utils_calculate_compliance (general_hours_required ethics_hours_required : ℚ)
    (records : List CPERecord) (period_start period_end : Date)
    (next_renewal_date : Option Date) (today : Date) : ComplianceStatusData :=
  let cpe_records := recordsInWindow records period_start period_end
  let total_hours : ℚ := sumCredits cpe_records
  let ethics_hours : ℚ := sumCredits (cpe_records.filter (fun r => r.is_ethics))
  let is_compliant := decide (general_hours_required ≤ total_hours ∧
    ethics_hours_required ≤ ethics_hours)
  let hours_needed : ℚ := max 0 (general_hours_required - total_hours)
  let ethics_hours_needed : ℚ := max 0 (ethics_hours_required - ethics_hours)
  let days_until_renewal : Option Int :=
    next_renewal_date.map (fun d => d.toDays - today.toDays)
  { is_compliant := is_compliant
    total_hours_completed := total_hours
    total_hours_required := general_hours_required
    hours_needed := hours_needed
    ethics_hours_completed := ethics_hours
    ethics_hours_required := ethics_hours_required
    ethics_hours_needed := ethics_hours_needed
    next_renewal_date := next_renewal_date
    days_until_renewal := days_until_renewal
    compliance_percentage := min 100 (total_hours / general_hours_required * 100) }

/-- A non-NH jurisdiction configuration used for concrete evaluations
(40 general hours, 4 ethics hours). -/
def caJurisdiction : CPAJurisdiction :=
  { code := "CA", general_hours_required := some 40, ethics_hours_required := some 4
    reporting_period_type := some "biennial", reporting_period_months := some 24 }

def caPeriod : ReportingPeriod :=
  { period_start := ⟨2024, 1, 1⟩, period_end := ⟨2025, 12, 31⟩
    period_type := "biennial", renewal_date := ⟨2025, 12, 31⟩
    days_remaining := 100 }

/-- One 40-hour non-ethics record inside the CA period. -/
def caRecords : List CPERecord :=
  [ { cpe_credits := 40, completion_date := ⟨2024, 6, 1⟩
      field_of_study := some "Taxes", is_ethics := false } ]

/-- C3 counterexample: with 40 total hours (meeting the 40-hour general
requirement) and 0 ethics hours (below the 4-hour ethics requirement), the
generic branch of `calculate_compliance_status_enhanced` reports
`is_compliant = true`: it checks only total hours, so "isCompliant iff
total ≥ general AND ethics ≥ ethicsRequired" is false for it.  The
`cpa_utils` calculator, which does include the ethics conjunct, reports
`is_compliant = false` on the same data. -/
theorem claim_C3_counterexample :
    (calculate_compliance_status_enhanced caJurisdiction caRecords caPeriod
      ⟨2025, 6, 15⟩).is_compliant = true ∧
    sumCredits ((recordsInWindow caRecords caPeriod.period_start
      caPeriod.period_end).filter (fun r => r.is_ethics)) = 0 ∧
    pyOrZero caJurisdiction.ethics_hours_required = 4 ∧
    (cpa_utils_calculate_compliance 40 4 caRecords caPeriod.period_start
      caPeriod.period_end none ⟨2025, 6, 15⟩).is_compliant = false := by
  refine ⟨?_, ?_, ?_, ?_⟩
  · norm_num [calculate_compliance_status_enhanced, caJurisdiction, caRecords, caPeriod,
      sumCredits, recordsInWindow, pyOrZero, List.filter_cons, Bool.and_eq_true,
      decide_eq_true_eq, Date.le, Date.lt, Date.mk.injEq,
      (show ("CA" : String) ≠ "NH" from by decide)]
  · norm_num [caJurisdiction, caRecords, caPeriod, sumCredits, recordsInWindow,
      List.filter_cons, Bool.and_eq_true, decide_eq_true_eq, Date.le, Date.lt,
      Date.mk.injEq]
  · norm_num [caJurisdiction, pyOrZero]
  · norm_num [cpa_utils_calculate_compliance, caRecords, caPeriod, sumCredits,
      recordsInWindow, List.filter_cons, Bool.and_eq_true, decide_eq_true_eq,
      decide_eq_false_iff_not, Date.le, Date.lt, Date.mk.injEq]

/-- What the generic (non-NH) branch of
`calculate_compliance_status_enhanced` actually guarantees: compliance is
total-hours-only; the percentage is `min(100, total/required*100)` (100 when
no requirement); when non-compliant, the status is "At Risk" exactly when
the percentage is at least 80 and "Non-Compliant" exactly otherwise. -/
def genericEvaluatorSpec (jurisdiction : CPAJurisdiction)
    (records : List CPERecord) (period : ReportingPeriod)
    (q : QuickComplianceStatus) : Prop :=
  (q.is_compliant = true ↔
    pyOrZero jurisdiction.general_hours_required ≤
      sumCredits (recordsInWindow records period.period_start period.period_end)) ∧
  q.compliance_percentage =
    min 100 (if 0 < pyOrZero jurisdiction.general_hours_required
      then sumCredits (recordsInWindow records period.period_start period.period_end) /
        pyOrZero jurisdiction.general_hours_required * 100
      else 100) ∧
  (q.is_compliant = false →
    ((q.status = "At Risk" ↔ 80 ≤ q.compliance_percentage) ∧
     (q.status = "Non-Compliant" ↔ q.compliance_percentage < 80)))

/-- What `CPAComplianceCalculator.calculate_compliance` guarantees: the
claim's two-clause compliance test and the clamped percentage. -/
def cpaUtilsEvaluatorSpec (general_hours_required ethics_hours_required : ℚ)
    (records : List CPERecord) (period_start period_end : Date)
    (c : ComplianceStatusData) : Prop :=
  (c.is_compliant = true ↔
    (general_hours_required ≤ sumCredits (recordsInWindow records period_start period_end) ∧
     ethics_hours_required ≤ sumCredits
       ((recordsInWindow records period_start period_end).filter (fun r => r.is_ethics)))) ∧
  c.compliance_percentage =
    min 100 (sumCredits (recordsInWindow records period_start period_end) /
      general_hours_required * 100)

/-- C3 (amended): the ethics conjunct belongs only to the `cpa_utils`
calculator.  The generic branch of `calculate_compliance_status_enhanced`
is compliant iff total hours meet the general requirement (ethics hours are
never consulted), with percentage `min(100, total/required*100)` and, when
non-compliant, status "At Risk" iff the percentage is ≥ 80, else
"Non-Compliant".  `CPAComplianceCalculator.calculate_compliance` is
compliant iff the total AND ethics requirements are both met, with the same
clamped percentage (its result carries no At-Risk/Non-Compliant status). -/
theorem claim_C3_generic_evaluator (jurisdiction : CPAJurisdiction)
    (records : List CPERecord) (period : ReportingPeriod) (today : Date)
    (hne : jurisdiction.code ≠ "NH")
    (general_hours_required ethics_hours_required : ℚ)
    (records2 : List CPERecord) (period_start period_end : Date)
    (next_renewal_date : Option Date) (today2 : Date)
    (hg : 0 < general_hours_required) :
    (∀ q, q = calculate_compliance_status_enhanced jurisdiction records period today →
      genericEvaluatorSpec jurisdiction records period q) ∧
    (∀ c, c = cpa_utils_calculate_compliance general_hours_required
        ethics_hours_required records2 period_start period_end
        next_renewal_date today2 →
      cpaUtilsEvaluatorSpec general_hours_required ethics_hours_required
        records2 period_start period_end c) := by
  constructor
  · intro q hq
    subst hq
    unfold calculate_compliance_status_enhanced
    rw [if_neg hne]
    unfold genericEvaluatorSpec
    set T : ℚ := sumCredits (recordsInWindow records period.period_start period.period_end)
      with hT
    set req : ℚ := pyOrZero jurisdiction.general_hours_required with hreq
    refine ⟨by simp [decide_eq_true_eq], rfl, ?_⟩
    intro hfalse
    have hnc : ¬ (req ≤ T) := by
      have : decide (req ≤ T) = false := hfalse
      exact of_decide_eq_false this
    have hlt : T < req := lt_of_not_le hnc
    set pctRaw : ℚ := if 0 < req then T / req * 100 else 100 with hpctRaw
    have hle100 : pctRaw ≤ 100 := by
      rw [hpctRaw]
      split_ifs with hpos
      · have h1 : T / req < 1 := (div_lt_one hpos).mpr hlt
        nlinarith
      · exact le_refl 100
    have hpct : min (100 : ℚ) pctRaw = pctRaw := min_eq_right hle100
    have hstat : (if decide (req ≤ T) then "Compliant"
        else if 80 ≤ pctRaw then "At Risk" else "Non-Compliant")
        = (if 80 ≤ pctRaw then "At Risk" else "Non-Compliant") := by
      rw [if_neg]
      simp [hnc]
    constructor
    · show (if decide (req ≤ T) then "Compliant"
          else if 80 ≤ pctRaw then "At Risk" else "Non-Compliant") = "At Risk" ↔
        (80 : ℚ) ≤ min 100 pctRaw
      rw [hstat, hpct]
      split_ifs with h80
      · simp [h80]
      · constructor
        · intro habs
          exact absurd habs (by decide)
        · intro habs
          exact absurd habs h80
    · show (if decide (req ≤ T) then "Compliant"
          else if 80 ≤ pctRaw then "At Risk" else "Non-Compliant") = "Non-Compliant" ↔
        min 100 pctRaw < 80
      rw [hstat, hpct]
      split_ifs with h80
      · constructor
        · intro habs
          exact absurd habs (by decide)
        · intro habs
          exact absurd h80 (not_le_of_lt habs)
      · simp [lt_of_not_le h80]
  · intro c hc
    subst hc
    unfold cpa_utils_calculate_compliance cpaUtilsEvaluatorSpec
    exact ⟨by simp [decide_eq_true_eq], rfl⟩

theorem claim_C3_generic_evaluator_witness :
    genericEvaluatorSpec caJurisdiction caRecords caPeriod
      (calculate_compliance_status_enhanced caJurisdiction caRecords caPeriod
        ⟨2025, 6, 15⟩) ∧
    cpaUtilsEvaluatorSpec 40 4 caRecords caPeriod.period_start caPeriod.period_end
      (cpa_utils_calculate_compliance 40 4 caRecords caPeriod.period_start
        caPeriod.period_end none ⟨2025, 6, 15⟩) :=
  ⟨(claim_C3_generic_evaluator caJurisdiction caRecords caPeriod ⟨2025, 6, 15⟩
      (by decide) 40 4 caRecords caPeriod.period_start caPeriod.period_end none
      ⟨2025, 6, 15⟩ (by norm_num)).1 _ rfl,
   (claim_C3_generic_evaluator caJurisdiction caRecords caPeriod ⟨2025, 6, 15⟩
      (by decide) 40 4 caRecords caPeriod.period_start caPeriod.period_end none
      ⟨2025, 6, 15⟩ (by norm_num)).2 _ rfl⟩

/-! ## Python date parsing
`parse_date_properly` (`app/api/certificate_upload.py` lines 56-80) and
`parse_date` (`app/api/shared/certificate_processing.py` lines 19-65) call
`datetime.strptime` on fixed format lists; the directives used there
(`%m %d %Y %B %b %A` and literal `/ - ,`/whitespace) are embedded below.
CPython compiles a format into a regex (numeric fields of one or two
digits bounded by non-digit literals, names matched case-insensitively,
format whitespace matching a whitespace run), requires the match to
consume the whole string, and then validates through the `date`
constructor; that is reproduced here. -/

/-- Python `\s` on the ASCII range (`str.split()` / `str.strip()`
whitespace). -/
def pyIsSpace (c : Char) : Bool :=
  c = ' ' ∨ c = '\t' ∨ c = '\n' ∨ c = '\r' ∨ c = '\x0b' ∨ c = '\x0c'

/-- Python `str.strip()`. -/
def pyStrip (s : String) : String :=
  ⟨((s.data.dropWhile pyIsSpace).reverse.dropWhile pyIsSpace).reverse⟩

/-- One token of a `strptime` format string. -/
inductive FmtTok where
  | lit (c : Char)
  | ws
  | monthNum
  | dayNum
  | year4
  | monthName
  | monthAbbr
  | weekdayName
deriving DecidableEq, Repr

/-- Take up to `n` leading digits. -/
def takeDigits : Nat → List Char → (List Char × List Char)
  | 0, cs => ([], cs)
  | _ + 1, [] => ([], [])
  | n + 1, c :: cs =>
    if c.isDigit then
      let p := takeDigits n cs
      (c :: p.1, p.2)
    else ([], c :: cs)

def digitsToNat (ds : List Char) : Nat :=
  ds.foldl (fun a c => 10 * a + (c.toNat - 48)) 0

/-- Case-insensitive name match from a fixed table (the en-US names
CPython uses); on success returns the associated value and the rest. -/
def matchNameCI (names : List (List Char × Nat)) (cs : List Char) :
    Option (Nat × List Char) :=
  names.findSome? (fun p =>
    if (cs.take p.1.length).map Char.toLower = p.1 then
      some (p.2, cs.drop p.1.length)
    else none)

def monthNamesFull : List (List Char × Nat) :=
  [("january".data, 1), ("february".data, 2), ("march".data, 3),
   ("april".data, 4), ("may".data, 5), ("june".data, 6), ("july".data, 7),
   ("august".data, 8), ("september".data, 9), ("october".data, 10),
   ("november".data, 11), ("december".data, 12)]

def monthNamesAbbr : List (List Char × Nat) :=
  [("jan".data, 1), ("feb".data, 2), ("mar".data, 3), ("apr".data, 4),
   ("may".data, 5), ("jun".data, 6), ("jul".data, 7), ("aug".data, 8),
   ("sep".data, 9), ("oct".data, 10), ("nov".data, 11), ("dec".data, 12)]

def weekdayNames : List (List Char × Nat) :=
  [("monday".data, 0), ("tuesday".data, 1), ("wednesday".data, 2),
   ("thursday".data, 3), ("friday".data, 4), ("saturday".data, 5),
   ("sunday".data, 6)]

/-- Run a format against the input, accumulating year/month/day (defaults
1900/1/1); fails if a token fails or input remains unconsumed. -/
def runFmt : List FmtTok → List Char → Nat → Nat → Nat → Option (Nat × Nat × Nat)
  | [], [], y, m, d => some (y, m, d)
  | [], _ :: _, _, _, _ => none
  | tok :: toks, cs, y, m, d =>
    match tok with
    | .lit ch =>
      match cs with
      | [] => none
      | c :: rest =>
        if c.toLower = ch.toLower then runFmt toks rest y m d else none
    | .ws =>
      match cs with
      | [] => none
      | c :: rest =>
        if pyIsSpace c then runFmt toks (rest.dropWhile pyIsSpace) y m d else none
    | .monthNum =>
      let p := takeDigits 2 cs
      if p.1.isEmpty then none else runFmt toks p.2 y (digitsToNat p.1) d
    | .dayNum =>
      let p := takeDigits 2 cs
      if p.1.isEmpty then none else runFmt toks p.2 y m (digitsToNat p.1)
    | .year4 =>
      let p := takeDigits 4 cs
      if p.1.length = 4 then runFmt toks p.2 (digitsToNat p.1) m d else none
    | .monthName =>
      match matchNameCI monthNamesFull cs with
      | some q => runFmt toks q.2 y q.1 d
      | none => none
    | .monthAbbr =>
      match matchNameCI monthNamesAbbr cs with
      | some q => runFmt toks q.2 y q.1 d
      | none => none
    | .weekdayName =>
      match matchNameCI weekdayNames cs with
      | some q => runFmt toks q.2 y m d
      | none => none

/-- Python `datetime.strptime(s, fmt).date()` for the format lists used by the
source: `None` exactly when CPython raises `ValueError` (no match,
unconverted data, or an invalid calendar date — `datetime` requires
`1 <= year <= 9999`). -/
def strptime (fmt : List FmtTok) (s : String) : Option Date :=
  match runFmt fmt s.data 1900 1 1 with
  | none => none
  | some (y, m, d) =>
    if 1 ≤ y ∧ y ≤ 9999 ∧ validDate ⟨(y : Int), m, d⟩ then
      some ⟨(y : Int), m, d⟩
    else none

def fmtA_B_d_Y : List FmtTok :=
  [.weekdayName, .ws, .monthName, .ws, .dayNum, .ws, .year4]
def fmtB_d_Y : List FmtTok := [.monthName, .ws, .dayNum, .ws, .year4]
def fmtB_d_comma_Y : List FmtTok :=
  [.monthName, .ws, .dayNum, .lit ',', .ws, .year4]
def fmt_mdY_slash : List FmtTok :=
  [.monthNum, .lit '/', .dayNum, .lit '/', .year4]
def fmt_mdY_dash : List FmtTok :=
  [.monthNum, .lit '-', .dayNum, .lit '-', .year4]
def fmt_Ymd : List FmtTok := [.year4, .lit '-', .monthNum, .lit '-', .dayNum]
def fmt_dmY_slash : List FmtTok :=
  [.dayNum, .lit '/', .monthNum, .lit '/', .year4]

example : strptime fmt_mdY_slash "6/2/2025" = some ⟨2025, 6, 2⟩ := by decide
example : strptime fmt_Ymd "2025-06-02" = some ⟨2025, 6, 2⟩ := by decide
example : strptime fmtB_d_Y "June 2 2025" = some ⟨2025, 6, 2⟩ := by decide
example : strptime fmtA_B_d_Y "Monday June 2 2025" = some ⟨2025, 6, 2⟩ := by decide
example : strptime fmt_mdY_slash "2/30/2025" = none := by decide
example : strptime fmt_mdY_slash "6/2/2025 x" = none := by decide

/-- Python `parse_date_properly` (`app/api/certificate_upload.py` lines 56-80):
strip commas and whitespace, then try the six formats in order; `None` if
all fail (the FIXED version — it never falls back to today). -/
def parse_date_properly (date_str : String) : Option Date :=
  if date_str = "" then none
  else
    let s := pyStrip ⟨date_str.data.filter (fun c => c ≠ ',')⟩
    [fmtA_B_d_Y, fmtB_d_Y, fmt_mdY_slash, fmt_mdY_dash, fmt_Ymd,
      fmt_dmY_slash].findSome? (fun fmt => strptime fmt s)

example : parse_date_properly "Monday, June 2, 2025" = some ⟨2025, 6, 2⟩ := by decide
example : parse_date_properly "hello" = none := by decide

/-- Python `str.split()` (split on whitespace runs, no empty parts). -/
def splitWsAux : List Char → List Char → List (List Char)
  | [], cur => if cur.isEmpty then [] else [cur.reverse]
  | c :: cs, cur =>
    if pyIsSpace c then
      (if cur.isEmpty then splitWsAux cs [] else cur.reverse :: splitWsAux cs [])
    else splitWsAux cs (c :: cur)

def pySplitWs (s : String) : List String :=
  (splitWsAux s.data []).map (fun l => ⟨l⟩)

/-- The capitalized month-name dictionary of `parse_date`
(`certificate_processing.py` lines 36-49); lookup is exact
(case-sensitive). -/
def month_map : List (String × Nat) :=
  [("January", 1), ("February", 2), ("March", 3), ("April", 4), ("May", 5),
   ("June", 6), ("July", 7), ("August", 8), ("September", 9),
   ("October", 10), ("November", 11), ("December", 12)]

/-- Python `int(s)`: optional sign and a nonempty digit string after
stripping whitespace (digit-group underscores are not modelled; no input
here contains them). -/
def pyInt (s : String) : Option Int :=
  let t := (pyStrip s).data
  match t with
  | '-' :: ds =>
    if ds ≠ [] ∧ ds.all Char.isDigit then some (-(digitsToNat ds : Int)) else none
  | '+' :: ds =>
    if ds ≠ [] ∧ ds.all Char.isDigit then some ((digitsToNat ds : Int)) else none
  | ds =>
    if ds ≠ [] ∧ ds.all Char.isDigit then some ((digitsToNat ds : Int)) else none

/-- The date-only core of `datetime.fromisoformat` (`YYYY-MM-DD`, two-digit
month and day); newer CPython accepts further forms (time suffixes, basic
format) that are not modelled — no claim here depends on them. -/
def fromisoformatDate (s : String) : Option Date :=
  match s.data with
  | [y1, y2, y3, y4, h1, m1, m2, h2, d1, d2] =>
    if h1 = '-' ∧ h2 = '-' ∧ [y1, y2, y3, y4, m1, m2, d1, d2].all Char.isDigit then
      let y := digitsToNat [y1, y2, y3, y4]
      let m := digitsToNat [m1, m2]
      let d := digitsToNat [d1, d2]
      if 1 ≤ y ∧ y ≤ 9999 ∧ validDate ⟨(y : Int), m, d⟩ then
        some ⟨(y : Int), m, d⟩
      else none
    else none
  | _ => none

/-- Python `parse_date` (`app/api/shared/certificate_processing.py` lines 19-65).
`date.today()` is passed in as `today`.  The whole body is wrapped in
`try: … except (ValueError, KeyError, IndexError): pass` followed by
`return date.today()`: every raising path (bad ISO string, non-integer
day/year, an invalid `date(...)` construction, too few parts) therefore
returns today, and so does falling through all three `strptime` formats —
the documented "Default to today if parsing fails". -/
def parse_date (today : Date) (date_str : String) : Option Date :=
  if date_str = "" then none
  else if date_str.data.contains '-' ∧ (date_str.splitOn "-").length = 3 then
    match fromisoformatDate date_str with
    | some d => some d
    | none => some today
  else if date_str.data.contains ',' ∧ 3 ≤ (pySplitWs date_str).length then
    let parts := pySplitWs ⟨date_str.data.filter (fun c => c ≠ ',')⟩
    if parts.length < 3 then some today
    else
      match pyInt (parts.getD (parts.length - 2) ""),
            pyInt (parts.getD (parts.length - 1) "") with
      | some day, some year =>
        match (month_map.find? (fun p => p.1 = parts.getD (parts.length - 3) "")) with
        | some p =>
          if 1 ≤ year ∧ year ≤ 9999 ∧ 1 ≤ day ∧ validDate ⟨year, p.2, day.toNat⟩ then
            some ⟨year, p.2, day.toNat⟩
          else some today
        | none =>
          match [fmt_mdY_slash, fmt_Ymd, fmtB_d_comma_Y].findSome?
              (fun fmt => strptime fmt date_str) with
          | some d => some d
          | none => some today
      | _, _ => some today
  else
    match [fmt_mdY_slash, fmt_Ymd, fmtB_d_comma_Y].findSome?
        (fun fmt => strptime fmt date_str) with
    | some d => some d
    | none => some today

example : parse_date ⟨2025, 6, 15⟩ "Friday, June 6, 2025" = some ⟨2025, 6, 6⟩ := by decide
example : parse_date ⟨2025, 6, 15⟩ "6/2/2025" = some ⟨2025, 6, 2⟩ := by decide

/-! ## Certificate data extraction (`parse_certificate_data`,
`app/api/certificate_upload.py` lines 83-233) -/

/-- The outcomes of the `re`-module searches performed by
`parse_certificate_data`, abstracted per section (the Python regex engine
is an external library and is not modelled; all theorems quantify over
every possible oracle, so nothing is assumed about it):
* `provider`, `course_name`, `course_code` — the value each cascade would
  assign (`none` when no pattern accepts, so the default survives);
* `creditCands` — per credit pattern in order, the first match's group
  parsed by `float(...)` (`none` for an unmatched pattern or a
  `ValueError`);
* `dateCands` — per date pattern in order, the `re.findall` result list. -/
structure TextOracle where
  provider : Option String
  course_name : Option String
  course_code : Option String
  creditCands : List (Option ℚ)
  dateCands : List (List String)

/-- The dictionary built by `parse_certificate_data`.
`requires_manual_date` is absent from the dictionary on the short-text
early return; since `data.get("requires_manual_date")` treats an absent
key as falsy, it is modelled as `false` there. -/
structure ParsedData where
  course_name : String
  course_code : Option String
  provider_name : String
  field_of_study : String
  cpe_credits : ℚ
  completion_date : Option Date
  delivery_method : String
  is_ethics : Bool
  requires_manual_date : Bool
deriving DecidableEq, Repr

/-- The initial defaults of `parse_certificate_data` (line 86-96):
credits 0.0, completion date `None`. -/
def defaultParsedData : ParsedData :=
  { course_name := "Unknown Course", course_code := none
    provider_name := "Unknown Provider", field_of_study := "General"
    cpe_credits := 0, completion_date := none
    delivery_method := "Self-Study", is_ethics := false
    requires_manual_date := false }

/-- The credit-pattern loop (lines 183-192): take the first per-pattern
match whose value lies in `[0.5, 40]`; an out-of-range or unparsable match
does not stop the loop. -/
def firstAcceptedCredit : List (Option ℚ) → Option ℚ
  | [] => none
  | none :: rest => firstAcceptedCredit rest
  | some v :: rest =>
    if 1 / 2 ≤ v ∧ v ≤ 40 then some v else firstAcceptedCredit rest

/-- The acceptance test of the date loop (line 209): parse the stripped
candidate with `parse_date_properly` and require
`date(2020,1,1) <= parsed <= today`. -/
def acceptDate (today : Date) (s : String) : Option Date :=
  match parse_date_properly (pyStrip s) with
  | some d =>
    if Date.le ⟨2020, 1, 1⟩ d ∧ Date.le d today then some d else none
  | none => none

/-- The date-pattern double loop (lines 205-213): the inner loop breaks at
the first accepted candidate of a pattern, the outer loop breaks once a
date is set — i.e. the first accepted candidate in pattern-then-match
order wins.  The per-pattern candidate lists are given already joined in
that order. -/
def firstAcceptedDate (today : Date) : List String → Option Date
  | [] => none
  | s :: rest =>
    match acceptDate today s with
    | some d => some d
    | none => firstAcceptedDate today rest

/-- Python `parse_certificate_data` (lines 83-233) over a regex oracle.  The
short-text guard returns the untouched defaults; otherwise the sections
run in source order, the missing-date handler substitutes the sentinel
`date(1900, 1, 1)` and sets `requires_manual_date`, and credits left at
`0.0` default to `1.0` at the very end. -/
def parse_certificate_data (o : TextOracle) (today : Date) (text : String) :
    ParsedData :=
  if text = "" ∨ text.length < 10 then defaultParsedData
  else
    let d1 : ParsedData :=
      { defaultParsedData with
        provider_name :=
          match o.provider with
          | some p => p
          | none => defaultParsedData.provider_name
        course_name :=
          match o.course_name with
          | some cn => cn
          | none => defaultParsedData.course_name
        course_code := o.course_code }
    let d2 : ParsedData :=
      match firstAcceptedCredit o.creditCands with
      | some v => { d1 with cpe_credits := v }
      | none => d1
    let d3 : ParsedData :=
      match firstAcceptedDate today o.dateCands.flatten with
      | some dd =>
        { d2 with completion_date := some dd, requires_manual_date := false }
      | none =>
        { d2 with completion_date := some ⟨1900, 1, 1⟩, requires_manual_date := true }
    if d3.cpe_credits = 0 then { d3 with cpe_credits := 1 } else d3

/-- Python `validate_extracted_data` (`app/api/certificate_upload.py` lines
265-291).  Note the date check compares against the sentinel
`date(1900,1,1)`; a `None` completion date (possible only on the
short-text early return) does not equal the sentinel and is NOT tagged. -/
def validate_extracted_data (d : ParsedData) : List String :=
  (if d.course_name = "Unknown Course" ∨ d.course_name = "the Course" ∨
      d.course_name = "Completion Certificate"
    then ["course_name_unclear"] else []) ++
  (if d.requires_manual_date = true ∨ d.completion_date = some ⟨1900, 1, 1⟩
    then ["completion_date_invalid"] else []) ++
  (if d.cpe_credits ≤ 0 ∨ 40 < d.cpe_credits
    then ["credits_unreasonable"] else []) ++
  (if d.provider_name = "Unknown Provider" ∨ d.provider_name = ""
    then ["provider_unclear"] else [])

/-- A trivial oracle (no regex matches anywhere). -/
def trivialOracle : TextOracle :=
  { provider := none, course_name := none, course_code := none
    creditCands := [], dateCands := [] }

/-! ### Lemmas about the acceptance loops -/

/-- The Bool form of the credit acceptance test `0.5 <= credits <= 40`. -/
def acceptCredit (v : ℚ) : Bool := decide (1 / 2 ≤ v ∧ v ≤ 40)

theorem firstAcceptedCredit_range :
    ∀ (l : List (Option ℚ)) (v : ℚ),
      firstAcceptedCredit l = some v → 1 / 2 ≤ v ∧ v ≤ 40 := by
  intro l
  induction l with
  | nil =>
    intro v h
    exact absurd h (by simp [firstAcceptedCredit])
  | cons a rest ih =>
    intro v h
    match a with
    | none => exact ih v h
    | some w =>
      rw [show firstAcceptedCredit (some w :: rest)
          = (if 1 / 2 ≤ w ∧ w ≤ 40 then some w else firstAcceptedCredit rest)
        from rfl] at h
      split_ifs at h with hw
      · cases h
        exact hw
      · exact ih v h

theorem firstAcceptedCredit_eq_find :
    ∀ l : List (Option ℚ),
      firstAcceptedCredit l = (l.filterMap id).find? acceptCredit := by
  intro l
  induction l with
  | nil => rfl
  | cons a rest ih =>
    match a with
    | none =>
      have h1 : firstAcceptedCredit (none :: rest) = firstAcceptedCredit rest := rfl
      have h2 : (none :: rest).filterMap (id : Option ℚ → Option ℚ)
          = rest.filterMap id := by
        simp [List.filterMap_cons]
      rw [h1, h2, ih]
    | some w =>
      have h2 : (some w :: rest).filterMap (id : Option ℚ → Option ℚ)
          = w :: rest.filterMap id := by
        simp [List.filterMap_cons]
      have h1 : firstAcceptedCredit (some w :: rest)
          = (if 1 / 2 ≤ w ∧ w ≤ 40 then some w else firstAcceptedCredit rest) := rfl
      rw [h1, h2]
      by_cases hw : 1 / 2 ≤ w ∧ w ≤ 40
      · rw [if_pos hw]
        have haw : acceptCredit w = true := by
          unfold acceptCredit
          exact decide_eq_true hw
        rw [List.find?_cons_of_pos _ haw]
      · rw [if_neg hw]
        have haw : ¬ (acceptCredit w = true) := by
          unfold acceptCredit
          intro hct
          exact hw (of_decide_eq_true hct)
        rw [List.find?_cons_of_neg _ haw]
        exact ih

theorem acceptDate_range (today : Date) (s : String) (d : Date)
    (h : acceptDate today s = some d) :
    Date.le ⟨2020, 1, 1⟩ d ∧ Date.le d today := by
  unfold acceptDate at h
  rcases hp : parse_date_properly (pyStrip s) with _ | dd
  · rw [hp] at h
    exact absurd h (by simp)
  · rw [hp] at h
    dsimp only at h
    split_ifs at h with hr
    cases h
    exact hr

theorem firstAcceptedDate_eq_findSome (today : Date) :
    ∀ l : List String,
      firstAcceptedDate today l = l.findSome? (acceptDate today) := by
  intro l
  induction l with
  | nil => rfl
  | cons s rest ih =>
    rw [show firstAcceptedDate today (s :: rest)
        = (match acceptDate today s with
           | some d => some d
           | none => firstAcceptedDate today rest) from rfl]
    rcases h : acceptDate today s with _ | d <;> simp [List.findSome?_cons, h, ih]

theorem firstAcceptedDate_range (today : Date) :
    ∀ (l : List String) (d : Date),
      firstAcceptedDate today l = some d →
      Date.le ⟨2020, 1, 1⟩ d ∧ Date.le d today := by
  intro l
  induction l with
  | nil =>
    intro d h
    exact absurd h (by simp [firstAcceptedDate])
  | cons s rest ih =>
    intro d h
    rw [show firstAcceptedDate today (s :: rest)
        = (match acceptDate today s with
           | some dd => some dd
           | none => firstAcceptedDate today rest) from rfl] at h
    rcases hs : acceptDate today s with _ | dd
    · rw [hs] at h
      exact ih d h
    · rw [hs] at h
      dsimp only at h
      cases h
      exact acceptDate_range today s _ hs

/-- The non-short-text run of `parse_certificate_data`, field by field:
the completion date is the first accepted candidate or else the sentinel
with `requires_manual_date` set, and the credits are the first accepted
value or else the `1.0` default. -/
theorem parse_certificate_data_long_shape (o : TextOracle) (today : Date)
    (text : String) (h : ¬ (text = "" ∨ text.length < 10)) :
    (parse_certificate_data o today text).completion_date
        = some ((firstAcceptedDate today o.dateCands.flatten).getD ⟨1900, 1, 1⟩) ∧
    (parse_certificate_data o today text).requires_manual_date
        = (firstAcceptedDate today o.dateCands.flatten).isNone ∧
    (parse_certificate_data o today text).cpe_credits
        = (match firstAcceptedCredit o.creditCands with
           | some v => v
           | none => 1) := by
  unfold parse_certificate_data
  rw [if_neg h]
  rcases hc : firstAcceptedCredit o.creditCands with _ | v <;>
    rcases hd : firstAcceptedDate today o.dateCands.flatten with _ | dd
  · simp only [hc, hd]
    split_ifs with h0
    · exact ⟨rfl, rfl, rfl⟩
    · exact absurd rfl h0
  · simp only [hc, hd]
    split_ifs with h0
    · exact ⟨rfl, rfl, rfl⟩
    · exact absurd rfl h0
  · have hv := firstAcceptedCredit_range o.creditCands v hc
    have hvne : v ≠ 0 := by
      intro h0
      rw [h0] at hv
      norm_num at hv
    simp only [hc, hd]
    split_ifs with h0
    · exact absurd h0 hvne
    · exact ⟨rfl, rfl, rfl⟩
  · have hv := firstAcceptedCredit_range o.creditCands v hc
    have hvne : v ≠ 0 := by
      intro h0
      rw [h0] at hv
      norm_num at hv
    simp only [hc, hd]
    split_ifs with h0
    · exact absurd h0 hvne
    · exact ⟨rfl, rfl, rfl⟩

theorem mem_tag_ite (s t : String) (P : Prop) [Decidable P] :
    (s ∈ (if P then [t] else ([] : List String))) ↔ (P ∧ s = t) := by
  split_ifs with h <;> simp [h]

theorem mem_validate_extracted_data (s : String) (d : ParsedData) :
    s ∈ validate_extracted_data d ↔
      (((d.course_name = "Unknown Course" ∨ d.course_name = "the Course" ∨
          d.course_name = "Completion Certificate") ∧ s = "course_name_unclear") ∨
       ((d.requires_manual_date = true ∨ d.completion_date = some ⟨1900, 1, 1⟩) ∧
          s = "completion_date_invalid") ∨
       ((d.cpe_credits ≤ 0 ∨ 40 < d.cpe_credits) ∧ s = "credits_unreasonable") ∨
       ((d.provider_name = "Unknown Provider" ∨ d.provider_name = "") ∧
          s = "provider_unclear")) := by
  unfold validate_extracted_data
  simp only [List.mem_append, mem_tag_ite]
  tauto

/-- The guard of the early return is false on texts of length at least
10. -/
theorem long_text_guard (text : String) (h10 : 10 ≤ text.length) :
    ¬ (text = "" ∨ text.length < 10) := by
  rintro (h | h)
  · rw [h] at h10
    exact absurd h10 (by decide)
  · omega

/-- C4 counterexample: the shared-module date parser `parse_date`
(`app/api/shared/certificate_processing.py`) DOES silently return today's
date on parse failure ("Default to today if parsing fails", line 65): on
the unparsable input `"hello"` — every strptime format of its loop fails —
it returns today (2025-06-15 here), contradicting "the extractor never
silently sets the completion date to today's date on parse failure". -/
theorem claim_C4_counterexample :
    parse_date ⟨2025, 6, 15⟩ "hello" = some ⟨2025, 6, 15⟩ ∧
    strptime fmt_mdY_slash "hello" = none ∧
    strptime fmt_Ymd "hello" = none ∧
    strptime fmtB_d_comma_Y "hello" = none := by
  refine ⟨?_, ?_, ?_, ?_⟩ <;> decide

/-- C4 (amended): the upload-endpoint extractor
(`parse_certificate_data`, `certificate_upload.py`) behaves as claimed —
it accepts only candidates parsed into `[2020-01-01, today]`, the first
accepted candidate (in pattern-then-match order) wins, and when none is
accepted it stores the sentinel `1900-01-01`, sets `requires_manual_date`,
gets tagged `completion_date_invalid`, and never silently equals today.
The shared parser `parse_date` of `certificate_processing.py`, however,
defaults to today on failure (see the counterexample). -/
theorem claim_C4_completion_date_extraction (o : TextOracle) (today : Date)
    (text : String) (h10 : 10 ≤ text.length) (htoday : today ≠ ⟨1900, 1, 1⟩) :
    ∀ d, d = parse_certificate_data o today text →
      (firstAcceptedDate today o.dateCands.flatten
          = o.dateCands.flatten.findSome? (acceptDate today)) ∧
      (∀ dd, firstAcceptedDate today o.dateCands.flatten = some dd →
        Date.le ⟨2020, 1, 1⟩ dd ∧ Date.le dd today ∧
        d.completion_date = some dd) ∧
      (firstAcceptedDate today o.dateCands.flatten = none →
        d.completion_date = some ⟨1900, 1, 1⟩ ∧
        d.requires_manual_date = true ∧
        "completion_date_invalid" ∈ validate_extracted_data d ∧
        d.completion_date ≠ some today) := by
  intro d hd
  subst hd
  have hshape := parse_certificate_data_long_shape o today text
    (long_text_guard text h10)
  refine ⟨firstAcceptedDate_eq_findSome today _, ?_, ?_⟩
  · intro dd hdd
    have hrange := firstAcceptedDate_range today o.dateCands.flatten dd hdd
    refine ⟨hrange.1, hrange.2, ?_⟩
    rw [hshape.1, hdd]
    rfl
  · intro hnone
    have hcd : (parse_certificate_data o today text).completion_date
        = some ⟨1900, 1, 1⟩ := by
      rw [hshape.1, hnone]
      rfl
    have hrm : (parse_certificate_data o today text).requires_manual_date = true := by
      rw [hshape.2.1, hnone]
      rfl
    refine ⟨hcd, hrm, ?_, ?_⟩
    · rw [mem_validate_extracted_data]
      exact Or.inr (Or.inl ⟨Or.inl hrm, rfl⟩)
    · rw [hcd]
      intro habs
      exact htoday (Option.some.inj habs).symm

theorem claim_C4_completion_date_extraction_witness :
    (firstAcceptedDate ⟨2025, 6, 15⟩ trivialOracle.dateCands.flatten
        = trivialOracle.dateCands.flatten.findSome? (acceptDate ⟨2025, 6, 15⟩)) ∧
    (∀ dd, firstAcceptedDate ⟨2025, 6, 15⟩ trivialOracle.dateCands.flatten = some dd →
      Date.le ⟨2020, 1, 1⟩ dd ∧ Date.le dd ⟨2025, 6, 15⟩ ∧
      (parse_certificate_data trivialOracle ⟨2025, 6, 15⟩
        "0123456789").completion_date = some dd) ∧
    (firstAcceptedDate ⟨2025, 6, 15⟩ trivialOracle.dateCands.flatten = none →
      (parse_certificate_data trivialOracle ⟨2025, 6, 15⟩
        "0123456789").completion_date = some ⟨1900, 1, 1⟩ ∧
      (parse_certificate_data trivialOracle ⟨2025, 6, 15⟩
        "0123456789").requires_manual_date = true ∧
      "completion_date_invalid" ∈ validate_extracted_data
        (parse_certificate_data trivialOracle ⟨2025, 6, 15⟩ "0123456789") ∧
      (parse_certificate_data trivialOracle ⟨2025, 6, 15⟩
        "0123456789").completion_date ≠ some ⟨2025, 6, 15⟩) :=
  claim_C4_completion_date_extraction trivialOracle ⟨2025, 6, 15⟩ "0123456789"
    (by decide) (by decide) _ rfl

/-- C5 counterexample: on the empty input text (shorter than 10
characters) `parse_certificate_data` early-returns the untouched initial
defaults: credit hours stay `0.0` — NOT the claimed `1.0`, because the
default-to-1.0 step sits at the end of the function and is skipped — the
completion date stays `None`, and `validate_extracted_data` does NOT tag
`completion_date_invalid` (a `None` date fails the sentinel comparison
`data["completion_date"] == date(1900, 1, 1)`). -/
theorem claim_C5_counterexample :
    (parse_certificate_data trivialOracle ⟨2025, 6, 15⟩ "").cpe_credits = 0 ∧
    ¬ ((parse_certificate_data trivialOracle ⟨2025, 6, 15⟩ "").cpe_credits = 1) ∧
    (parse_certificate_data trivialOracle ⟨2025, 6, 15⟩ "").completion_date = none ∧
    ¬ ("completion_date_invalid" ∈ validate_extracted_data
        (parse_certificate_data trivialOracle ⟨2025, 6, 15⟩ "")) := by
  have h0 : parse_certificate_data trivialOracle ⟨2025, 6, 15⟩ "" = defaultParsedData := rfl
  refine ⟨rfl, ?_, rfl, ?_⟩
  · rw [h0]
    show ¬ ((0 : ℚ) = 1)
    norm_num
  · rw [h0, mem_validate_extracted_data]
    rintro (⟨_, hs⟩ | ⟨hcond, _⟩ | ⟨_, hs⟩ | ⟨_, hs⟩)
    · exact absurd hs (by decide)
    · rcases hcond with hr | hc
      · exact absurd hr (by decide)
      · exact absurd hc (by simp [defaultParsedData])
    · exact absurd hs (by decide)
    · exact absurd hs (by decide)

/-- C5 (amended): for any text shorter than 10 characters the parser
returns the untouched defaults (credits `0.0`, completion date `None`,
no `requires_manual_date` key), and validation then flags exactly
`course_name_unclear`, `credits_unreasonable` (credits `0.0 ≤ 0`) and
`provider_unclear` — not `completion_date_invalid`.  (No
extraction-method field exists in this code path.) -/
theorem claim_C5_short_text_defaults (o : TextOracle) (today : Date)
    (text : String) (h : text.length < 10) :
    parse_certificate_data o today text = defaultParsedData ∧
    validate_extracted_data (parse_certificate_data o today text)
      = ["course_name_unclear", "credits_unreasonable", "provider_unclear"] := by
  have h1 : parse_certificate_data o today text = defaultParsedData := by
    unfold parse_certificate_data
    rw [if_pos (Or.inr h)]
  refine ⟨h1, ?_⟩
  rw [h1]
  decide

theorem claim_C5_short_text_defaults_witness :
    parse_certificate_data trivialOracle ⟨2025, 6, 15⟩ "" = defaultParsedData ∧
    validate_extracted_data (parse_certificate_data trivialOracle ⟨2025, 6, 15⟩ "")
      = ["course_name_unclear", "credits_unreasonable", "provider_unclear"] :=
  claim_C5_short_text_defaults trivialOracle ⟨2025, 6, 15⟩ "" (by decide)

/-- C6: the credit extractor of `parse_certificate_data` accepts a matched
value exactly when it lies in the closed interval `[0.5, 40]` (so `0.5`
and `40` are accepted while `0.4` and `40.1` are rejected), the first
accepted value wins, an unaccepted run falls back to the default `1.0`,
and the `credits_unreasonable` tag is set exactly when the FINAL value is
`≤ 0` or `> 40` — so the `1.0` fallback is never tagged. -/
theorem claim_C6_credit_hours_extraction (o : TextOracle) (today : Date)
    (text : String) (h10 : 10 ≤ text.length) :
    ∀ d, d = parse_certificate_data o today text →
      (firstAcceptedCredit o.creditCands
          = (o.creditCands.filterMap id).find? acceptCredit) ∧
      (∀ v : ℚ, acceptCredit v = true ↔ (1 / 2 ≤ v ∧ v ≤ 40)) ∧
      (acceptCredit (1 / 2) = true ∧ acceptCredit 40 = true ∧
        acceptCredit (2 / 5) = false ∧ acceptCredit (401 / 10) = false) ∧
      (∀ v, firstAcceptedCredit o.creditCands = some v → d.cpe_credits = v) ∧
      (firstAcceptedCredit o.creditCands = none → d.cpe_credits = 1) ∧
      ("credits_unreasonable" ∈ validate_extracted_data d ↔
        (d.cpe_credits ≤ 0 ∨ 40 < d.cpe_credits)) ∧
      (firstAcceptedCredit o.creditCands = none →
        ¬ ("credits_unreasonable" ∈ validate_extracted_data d)) := by
  intro d hd
  subst hd
  have hshape := parse_certificate_data_long_shape o today text
    (long_text_guard text h10)
  have hcred : ∀ v, firstAcceptedCredit o.creditCands = some v →
      (parse_certificate_data o today text).cpe_credits = v := by
    intro v hv
    rw [hshape.2.2, hv]
  have hdflt : firstAcceptedCredit o.creditCands = none →
      (parse_certificate_data o today text).cpe_credits = 1 := by
    intro hn
    rw [hshape.2.2, hn]
  have hmem : "credits_unreasonable" ∈
      validate_extracted_data (parse_certificate_data o today text) ↔
      ((parse_certificate_data o today text).cpe_credits ≤ 0 ∨
        40 < (parse_certificate_data o today text).cpe_credits) := by
    rw [mem_validate_extracted_data]
    constructor
    · rintro (⟨_, hs⟩ | ⟨_, hs⟩ | ⟨hc, _⟩ | ⟨_, hs⟩)
      · exact absurd hs (by decide)
      · exact absurd hs (by decide)
      · exact hc
      · exact absurd hs (by decide)
    · intro hc
      exact Or.inr (Or.inr (Or.inl ⟨hc, rfl⟩))
  refine ⟨firstAcceptedCredit_eq_find _, ?_, ?_, hcred, hdflt, hmem, ?_⟩
  · intro v
    unfold acceptCredit
    exact decide_eq_true_iff
  · refine ⟨?_, ?_, ?_, ?_⟩ <;>
      (unfold acceptCredit; first
        | (rw [decide_eq_true_eq]; norm_num)
        | (rw [decide_eq_false_iff_not]; norm_num))
  · intro hn
    rw [hmem, hdflt hn]
    norm_num

theorem claim_C6_credit_hours_extraction_witness :
    (firstAcceptedCredit trivialOracle.creditCands
        = (trivialOracle.creditCands.filterMap id).find? acceptCredit) ∧
    (∀ v : ℚ, acceptCredit v = true ↔ (1 / 2 ≤ v ∧ v ≤ 40)) ∧
    (acceptCredit (1 / 2) = true ∧ acceptCredit 40 = true ∧
      acceptCredit (2 / 5) = false ∧ acceptCredit (401 / 10) = false) ∧
    (∀ v, firstAcceptedCredit trivialOracle.creditCands = some v →
      (parse_certificate_data trivialOracle ⟨2025, 6, 15⟩
        "0123456789").cpe_credits = v) ∧
    (firstAcceptedCredit trivialOracle.creditCands = none →
      (parse_certificate_data trivialOracle ⟨2025, 6, 15⟩
        "0123456789").cpe_credits = 1) ∧
    ("credits_unreasonable" ∈ validate_extracted_data
        (parse_certificate_data trivialOracle ⟨2025, 6, 15⟩ "0123456789") ↔
      ((parse_certificate_data trivialOracle ⟨2025, 6, 15⟩
          "0123456789").cpe_credits ≤ 0 ∨
        40 < (parse_certificate_data trivialOracle ⟨2025, 6, 15⟩
          "0123456789").cpe_credits)) ∧
    (firstAcceptedCredit trivialOracle.creditCands = none →
      ¬ ("credits_unreasonable" ∈ validate_extracted_data
        (parse_certificate_data trivialOracle ⟨2025, 6, 15⟩ "0123456789"))) :=
  claim_C6_credit_hours_extraction trivialOracle ⟨2025, 6, 15⟩ "0123456789"
    (by decide) _ rfl

/-! ## Enhanced upload flow and duplicate detection
(`upload_certificate_enhanced`, `app/api/certificate_upload.py` lines
364-513; `generate_file_hash`, lines 29-31) -/

/-- Last component of a dot-split, as `s.split(".")[-1]` computes it:
the characters after the final `.` (the whole string when no dot). -/
def lastDotComponent : List Char → List Char → List Char
  | [], acc => acc.reverse
  | c :: rest, acc =>
    if c = '.' then lastDotComponent rest [] else lastDotComponent rest (c :: acc)

/-- Python `validate_file_type` (`certificate_upload.py` lines 34-42): accept by
lowercased last dot-component. -/
def validate_file_type (filename : String) : Bool × String :=
  if filename = "" ∨ ¬ (filename.data.contains '.') then (false, "")
  else
    let file_ext : String := ⟨lastDotComponent (lowerStr filename).data []⟩
    (["pdf", "jpg", "jpeg", "png", "tiff", "bmp"].contains file_ext, file_ext)

example : (validate_file_type "a.PDF").1 = true := by decide
example : (validate_file_type "archive.zip").1 = false := by decide
example : (validate_file_type "noext").1 = false := by decide

/-- A persisted `CPERecord` row as the upload flow writes it: the columns
relevant to duplicate detection (`id`, `user_id`, `certificate_hash`) plus
the parsed payload. -/
structure StoredCPERecord where
  id : Nat
  user_id : Nat
  certificate_hash : String
  data : ParsedData
deriving DecidableEq, Repr

/-- The database state seen by the upload endpoint: the `cpe_records`
table in insertion order plus the id sequence. -/
structure Store where
  records : List StoredCPERecord
  next_id : Nat
deriving DecidableEq, Repr

/-- The distinct response shapes of `upload_certificate_enhanced`. -/
inductive UploadOutcome where
  | unsupported_format
  | empty_file
  | duplicate (existing_record_id : Nat)
  | extraction_failed
  | needs_review (quality_issues : List String)
  | success (record_id : Nat)
deriving DecidableEq, Repr

/-- Python `upload_certificate_enhanced` (`certificate_upload.py` lines 364-513).
External collaborators are parameters: `hashFn` abstracts
`hashlib.sha256(...).hexdigest()` over the raw bytes (a function of the
content, so identical bytes hash identically), `extractFn` abstracts the
Vision OCR call, and `oracleFn` gives the regex-cascade outcomes for the
extracted text.  The duplicate query
`filter(certificate_hash == h, user_id == u).first()` is `find?` in
insertion order; the insert appends with the next id. -/
def upload_certificate_enhanced (hashFn : List Nat → String)
    (extractFn : List Nat → String → String) (oracleFn : String → TextOracle)
    (today : Date) (store : Store) (user_id : Nat)
    (filename : String) (file_content : List Nat) : UploadOutcome × Store :=
  if (validate_file_type filename).1 = false then (.unsupported_format, store)
  else if file_content.length = 0 then (.empty_file, store)
  else
    let file_hash := hashFn file_content
    match store.records.find? (fun r =>
        decide (r.certificate_hash = file_hash) && decide (r.user_id = user_id)) with
    | some existing_record => (.duplicate existing_record.id, store)
    | none =>
      let extracted_text := extractFn file_content filename
      if extracted_text = "" ∨ extracted_text.length < 10 then
        (.extraction_failed, store)
      else
        let parsed_data := parse_certificate_data (oracleFn extracted_text)
          today extracted_text
        let quality_issues := validate_extracted_data parsed_data
        if quality_issues ≠ [] then (.needs_review quality_issues, store)
        else
          (.success store.next_id,
            { records := store.records ++
                [{ id := store.next_id, user_id := user_id
                   certificate_hash := file_hash, data := parsed_data }]
              next_id := store.next_id + 1 })

/-- When the first upload outcome is not `success`, both clauses of the
C8 idempotence property hold vacuously. -/
theorem upload_nonsuccess_aux {o1 o2 : UploadOutcome} {s1 s2 : Store}
    (h : ∀ i, o1 ≠ UploadOutcome.success i) :
    (¬ ∃ i j, o1 = UploadOutcome.success i ∧ o2 = UploadOutcome.success j) ∧
    (∀ i, o1 = UploadOutcome.success i →
      o2 = UploadOutcome.duplicate i ∧ s2 = s1) := by
  constructor
  · rintro ⟨i, j, hsucc, _⟩
    exact h i hsucc
  · intro i hsucc
    exact absurd hsucc (h i)

/-- C8 counterexample: submitting the same bytes twice does NOT always
resolve to the duplicate outcome.  When the first submission is not
accepted (here: OCR yields no usable text, so `extraction_failed` and
nothing is stored), the second identical submission finds no stored record
and repeats `extraction_failed` instead of `duplicate`. -/
theorem claim_C8_counterexample :
    (upload_certificate_enhanced (fun _ => "h") (fun _ _ => "")
      (fun _ => trivialOracle) ⟨2025, 6, 15⟩ ⟨[], 1⟩ 7 "a.pdf" [1, 2, 3]).1
        = UploadOutcome.extraction_failed ∧
    (upload_certificate_enhanced (fun _ => "h") (fun _ _ => "")
      (fun _ => trivialOracle) ⟨2025, 6, 15⟩ ⟨[], 1⟩ 7 "a.pdf" [1, 2, 3]).2
        = ⟨[], 1⟩ ∧
    (upload_certificate_enhanced (fun _ => "h") (fun _ _ => "")
      (fun _ => trivialOracle) ⟨2025, 6, 15⟩
      (upload_certificate_enhanced (fun _ => "h") (fun _ _ => "")
        (fun _ => trivialOracle) ⟨2025, 6, 15⟩ ⟨[], 1⟩ 7 "a.pdf" [1, 2, 3]).2
      7 "a.pdf" [1, 2, 3]).1 = UploadOutcome.extraction_failed := by
  refine ⟨?_, ?_, ?_⟩ <;> decide

/-- C8 (amended): submitting identical bytes twice in succession for the
same owner never yields two accepted records; and whenever the FIRST
submission is accepted (stored), the second resolves to the duplicate
outcome referencing the first's record id and leaves the store unchanged.
A first submission that was not stored (failed validation, extraction or
review) repeats its outcome instead of resolving to duplicate. -/
theorem claim_C8_duplicate_idempotence (hashFn : List Nat → String)
    (extractFn : List Nat → String → String) (oracleFn : String → TextOracle)
    (today : Date) (store : Store) (user_id : Nat) (filename : String)
    (file_content : List Nat) :
    ∀ o1 s1 o2 s2,
      (o1, s1) = upload_certificate_enhanced hashFn extractFn oracleFn today
        store user_id filename file_content →
      (o2, s2) = upload_certificate_enhanced hashFn extractFn oracleFn today
        s1 user_id filename file_content →
      (¬ ∃ i j, o1 = UploadOutcome.success i ∧ o2 = UploadOutcome.success j) ∧
      (∀ i, o1 = UploadOutcome.success i →
        o2 = UploadOutcome.duplicate i ∧ s2 = s1) := by
  intro o1 s1 o2 s2 ho1 ho2
  unfold upload_certificate_enhanced at ho1
  by_cases hval : (validate_file_type filename).1 = false
  · rw [if_pos hval, Prod.mk.injEq] at ho1
    exact upload_nonsuccess_aux (fun i h => by rw [ho1.1] at h; cases h)
  · rw [if_neg hval] at ho1
    by_cases hlen : file_content.length = 0
    · rw [if_pos hlen, Prod.mk.injEq] at ho1
      exact upload_nonsuccess_aux (fun i h => by rw [ho1.1] at h; cases h)
    · rw [if_neg hlen] at ho1
      dsimp only at ho1
      rcases hfind : store.records.find? (fun r =>
          decide (r.certificate_hash = hashFn file_content) &&
          decide (r.user_id = user_id)) with _ | existing
      · rw [hfind] at ho1
        by_cases htext : extractFn file_content filename = "" ∨
            (extractFn file_content filename).length < 10
        · rw [if_pos htext, Prod.mk.injEq] at ho1
          exact upload_nonsuccess_aux (fun i h => by rw [ho1.1] at h; cases h)
        · rw [if_neg htext] at ho1
          by_cases hiss : validate_extracted_data
              (parse_certificate_data (oracleFn (extractFn file_content filename))
                today (extractFn file_content filename)) ≠ []
          · rw [if_pos hiss, Prod.mk.injEq] at ho1
            exact upload_nonsuccess_aux (fun i h => by rw [ho1.1] at h; cases h)
          · rw [if_neg hiss, Prod.mk.injEq] at ho1
            obtain ⟨ho1eq, hs1⟩ := ho1
            -- the first call inserted the record; the second call passes the
            -- same validity and length checks and then finds it
            unfold upload_certificate_enhanced at ho2
            rw [if_neg hval, if_neg hlen] at ho2
            dsimp only at ho2
            rw [hs1] at ho2
            dsimp only at ho2
            rw [List.find?_append, hfind] at ho2
            simp only [Option.none_or] at ho2
            rw [List.find?_cons_of_pos _ (by simp)] at ho2
            dsimp only at ho2
            rw [Prod.mk.injEq] at ho2
            obtain ⟨ho2eq, hs2⟩ := ho2
            constructor
            · rintro ⟨i, j, _, hsucc2⟩
              rw [ho2eq] at hsucc2
              cases hsucc2
            · intro i hsucc
              rw [ho1eq] at hsucc
              cases hsucc
              exact ⟨ho2eq, by rw [hs2, hs1]⟩
      · rw [hfind, Prod.mk.injEq] at ho1
        exact upload_nonsuccess_aux (fun i h => by rw [ho1.1] at h; cases h)

theorem claim_C8_duplicate_idempotence_witness :
    (¬ ∃ i j,
      (upload_certificate_enhanced (fun _ => "h") (fun _ _ => "")
        (fun _ => trivialOracle) ⟨2025, 6, 15⟩ ⟨[], 1⟩ 7 "a.pdf" [1, 2, 3]).1
          = UploadOutcome.success i ∧
      (upload_certificate_enhanced (fun _ => "h") (fun _ _ => "")
        (fun _ => trivialOracle) ⟨2025, 6, 15⟩
        (upload_certificate_enhanced (fun _ => "h") (fun _ _ => "")
          (fun _ => trivialOracle) ⟨2025, 6, 15⟩ ⟨[], 1⟩ 7 "a.pdf" [1, 2, 3]).2
        7 "a.pdf" [1, 2, 3]).1 = UploadOutcome.success j) ∧
    (∀ i,
      (upload_certificate_enhanced (fun _ => "h") (fun _ _ => "")
        (fun _ => trivialOracle) ⟨2025, 6, 15⟩ ⟨[], 1⟩ 7 "a.pdf" [1, 2, 3]).1
          = UploadOutcome.success i →
      (upload_certificate_enhanced (fun _ => "h") (fun _ _ => "")
        (fun _ => trivialOracle) ⟨2025, 6, 15⟩
        (upload_certificate_enhanced (fun _ => "h") (fun _ _ => "")
          (fun _ => trivialOracle) ⟨2025, 6, 15⟩ ⟨[], 1⟩ 7 "a.pdf" [1, 2, 3]).2
        7 "a.pdf" [1, 2, 3]).1 = UploadOutcome.duplicate i ∧
      (upload_certificate_enhanced (fun _ => "h") (fun _ _ => "")
        (fun _ => trivialOracle) ⟨2025, 6, 15⟩
        (upload_certificate_enhanced (fun _ => "h") (fun _ _ => "")
          (fun _ => trivialOracle) ⟨2025, 6, 15⟩ ⟨[], 1⟩ 7 "a.pdf" [1, 2, 3]).2
        7 "a.pdf" [1, 2, 3]).2
        = (upload_certificate_enhanced (fun _ => "h") (fun _ _ => "")
          (fun _ => trivialOracle) ⟨2025, 6, 15⟩ ⟨[], 1⟩ 7 "a.pdf" [1, 2, 3]).2) :=
  claim_C8_duplicate_idempotence (fun _ => "h") (fun _ _ => "")
    (fun _ => trivialOracle) ⟨2025, 6, 15⟩ ⟨[], 1⟩ 7 "a.pdf" [1, 2, 3]
    _ _ _ _ rfl rfl

/-! ## Filename-pattern extractor (spec section 4.2)
No implementation of the filename extractor exists under `src/`; the
definitions in this section are modelled from the spec's contract and are
to be compared against any future implementation. -/

/-- Maximal leading digit run of a character list, with the rest. -/
def takeDigitRun : List Char → (List Char × List Char)
  | [] => ([], [])
  | c :: cs =>
    if c.isDigit then
      let p := takeDigitRun cs
      (c :: p.1, p.2)
    else ([], c :: cs)

/-- Modelled from the spec: the leading decimal-credits token of the
structured filename convention, regex anchored at the start:
one or more digits, an optional dot, further digits, immediately followed
by the literal `CPE_`.  Returns the integer-part digits, the
fractional-part digits and the rest after `CPE_`. -/
def scanLeadingCredits (cs : List Char) : Option ((List Char × List Char) × List Char) :=
  let p := takeDigitRun cs
  if p.1 = [] then none
  else
    match p.2 with
    | '.' :: rest =>
      let q := takeDigitRun rest
      if "CPE_".data.isPrefixOf q.2 then some ((p.1, q.1), q.2.drop 4) else none
    | rest =>
      if "CPE_".data.isPrefixOf rest then some ((p.1, []), rest.drop 4) else none

/-- Modelled from the spec: decimal credit hours denoted by an
integer-digit part and a fractional-digit part. -/
def creditsOfDigits (ip fp : List Char) : ℚ :=
  (digitsToNat ip : ℚ) + (digitsToNat fp : ℚ) / (10 : ℚ) ^ fp.length

/-- Modelled from the spec: leftmost occurrence of the embedded course
code `Code_M` followed by one or more digits; the returned code keeps the
`M`. -/
def scanCourseCode : List Char → Option String
  | [] => none
  | c :: cs =>
    if "Code_M".data.isPrefixOf (c :: cs) then
      let q := takeDigitRun ((c :: cs).drop 6)
      if q.1 = [] then scanCourseCode cs else some ⟨'M' :: q.1⟩
    else scanCourseCode cs

/-- A year-month token `20dd-dd` starting at the head of the list, mapped
to the first day of that month. -/
def ymAt : List Char → Option Date
  | '2' :: '0' :: a :: b :: '-' :: c :: d :: _ =>
    if a.isDigit && b.isDigit && c.isDigit && d.isDigit then
      some ⟨2000 + (digitsToNat [a, b] : Int), digitsToNat [c, d], 1⟩
    else none
  | _ => none

/-- Modelled from the spec: leftmost embedded year-month token, mapped to
the first day of that month; a token whose month part is outside 1..12 is
skipped rather than raised (the extractor never throws). -/
def scanYearMonth : List Char → Option Date
  | [] => none
  | c :: cs =>
    match ymAt (c :: cs) with
    | some dte =>
      if 1 ≤ dte.month ∧ dte.month ≤ 12 then some dte else scanYearMonth cs
    | none => scanYearMonth cs

/-- Modelled from the spec: the candidate record produced by the filename
extractor — the fields the convention can fill, plus the fixed extraction
method and confidence. -/
structure FilenameCandidate where
  creditHours : ℚ
  courseCode : Option String
  completionDate : Option Date
  extractionMethod : String
  confidence : ℚ
deriving DecidableEq, Repr

/-- Modelled from the spec: a filename matches the structured convention
iff the leading decimal-credits token is present. -/
def matchesFilenameConvention (filename : String) : Bool :=
  (scanLeadingCredits filename.data).isSome

/-- Modelled from the spec: `extractFromFilename` returns null when the
filename does not match the structured convention; otherwise a candidate
with `extractionMethod = filenamePattern`, `confidence = 0.9`, and course
code and completion date filled from their embedded patterns when
present. -/
def extractFromFilename (filename : String) : Option FilenameCandidate :=
  match scanLeadingCredits filename.data with
  | none => none
  | some p =>
    some { creditHours := creditsOfDigits p.1.1 p.1.2
           courseCode := scanCourseCode filename.data
           completionDate := scanYearMonth filename.data
           extractionMethod := "filenamePattern"
           confidence := 9 / 10 }

/-- C9: the filename-pattern extractor maps
`10.00CPE_Code_M252-2025-01-SSDL_Daniel_Ahern_fo.pdf` to credit hours 10,
course code `M252` and completion date 2025-01-01 (with the filename
method and confidence 0.9), and returns none on every filename that does
not match the structured convention. -/
theorem claim_C9_filename_extraction :
    (extractFromFilename "10.00CPE_Code_M252-2025-01-SSDL_Daniel_Ahern_fo.pdf"
      = some { creditHours := 10, courseCode := some "M252",
               completionDate := some ⟨2025, 1, 1⟩,
               extractionMethod := "filenamePattern", confidence := 9 / 10 }) ∧
    (∀ fn, matchesFilenameConvention fn = false →
      extractFromFilename fn = none) := by
  constructor
  · have hscan : scanLeadingCredits
        ("10.00CPE_Code_M252-2025-01-SSDL_Daniel_Ahern_fo.pdf").data
        = some ((['1', '0'], ['0', '0']),
            ("Code_M252-2025-01-SSDL_Daniel_Ahern_fo.pdf").data) := by decide
    have hcode : scanCourseCode
        ("10.00CPE_Code_M252-2025-01-SSDL_Daniel_Ahern_fo.pdf").data
        = some "M252" := by decide
    have hym : scanYearMonth
        ("10.00CPE_Code_M252-2025-01-SSDL_Daniel_Ahern_fo.pdf").data
        = some ⟨2025, 1, 1⟩ := by decide
    have hcred : creditsOfDigits ['1', '0'] ['0', '0'] = 10 := by
      have h1 : digitsToNat ['1', '0'] = 10 := by decide
      have h2 : digitsToNat ['0', '0'] = 0 := by decide
      unfold creditsOfDigits
      rw [h1, h2]
      norm_num
    unfold extractFromFilename
    rw [hscan]
    dsimp only
    rw [hcode, hym, hcred]
  · intro fn h
    unfold matchesFilenameConvention at h
    unfold extractFromFilename
    rcases hscan : scanLeadingCredits fn.data with _ | p
    · rfl
    · rw [hscan] at h
      simp at h

theorem claim_C9_filename_extraction_witness :
    matchesFilenameConvention "README.txt" = false ∧
    extractFromFilename "README.txt" = none :=
  ⟨by decide, claim_C9_filename_extraction.2 "README.txt" (by decide)⟩

/-! ## Filename sanitization (`sanitize_filename`,
`app/api/shared/filename_utils.py` lines 14-25) -/

/-- The character class removed by the first substitution in
`sanitize_filename`. -/
def invalidFilenameChar (c : Char) : Bool :=
  c = '<' ∨ c = '>' ∨ c = ':' ∨ c = '"' ∨ c = '/' ∨ c = '\\' ∨
    c = '|' ∨ c = '?' ∨ c = '*'

/-- The substitution replacing each character of the invalid class by an
underscore. -/
def replaceInvalid (l : List Char) : List Char :=
  l.map fun c => if invalidFilenameChar c then '_' else c

/-- A substitution replacing each maximal run of characters satisfying
`p` by a single underscore; the flag tracks being inside a run. -/
def collapseRuns (p : Char → Bool) : List Char → Bool → List Char
  | [], _ => []
  | c :: cs, inRun =>
    if p c then
      if inRun then collapseRuns p cs true else '_' :: collapseRuns p cs true
    else c :: collapseRuns p cs false

/-- Python `filename[:200]` guarded by the length test. -/
def truncate200 (l : List Char) : List Char :=
  if l.length > 200 then l.take 200 else l

/-- Python `filename.strip("_")`. -/
def stripUnderscores (l : List Char) : List Char :=
  ((l.dropWhile fun c => c = '_').reverse.dropWhile fun c => c = '_').reverse

/-- Python `sanitize_filename` (`filename_utils.py` lines 14-25):
replace the invalid characters by underscores, collapse whitespace runs
to underscores, collapse underscore runs, truncate to 200 characters,
and strip leading and trailing underscores. -/
def sanitize_filename (filename : String) : String :=
  ⟨stripUnderscores (truncate200 (collapseRuns (fun c => c = '_')
    (collapseRuns pyIsSpace (replaceInvalid filename.data) false) false))⟩

example : sanitize_filename "a b" = "a_b" := by decide
example : sanitize_filename "a<>b" = "a_b" := by decide
example : sanitize_filename "__a_ _b__" = "a_b" := by decide
example : sanitize_filename "my file: draft?.pdf" = "my_file_draft_.pdf" := by decide

/-- Every character emitted by `collapseRuns` is an underscore or a
non-run character of the input. -/
theorem collapseRuns_mem (p : Char → Bool) (l : List Char) :
    ∀ (b : Bool) (c : Char),
      c ∈ collapseRuns p l b → c = '_' ∨ (c ∈ l ∧ p c = false) := by
  induction l with
  | nil =>
    intro b c h
    simp [collapseRuns] at h
  | cons d ds ih =>
    intro b c h
    cases hd : p d with
    | true =>
      cases b with
      | true =>
        rw [show collapseRuns p (d :: ds) true = collapseRuns p ds true from by
          simp [collapseRuns, hd]] at h
        rcases ih true c h with h1 | ⟨h2, h3⟩
        · exact Or.inl h1
        · exact Or.inr ⟨List.mem_cons_of_mem d h2, h3⟩
      | false =>
        rw [show collapseRuns p (d :: ds) false
            = '_' :: collapseRuns p ds true from by simp [collapseRuns, hd]] at h
        rcases List.mem_cons.mp h with rfl | h'
        · exact Or.inl rfl
        · rcases ih true c h' with h1 | ⟨h2, h3⟩
          · exact Or.inl h1
          · exact Or.inr ⟨List.mem_cons_of_mem d h2, h3⟩
    | false =>
      rw [show collapseRuns p (d :: ds) b = d :: collapseRuns p ds false from by
        simp [collapseRuns, hd]] at h
      rcases List.mem_cons.mp h with rfl | h'
      · exact Or.inr ⟨List.mem_cons_self _ _, hd⟩
      · rcases ih false c h' with h1 | ⟨h2, h3⟩
        · exact Or.inl h1
        · exact Or.inr ⟨List.mem_cons_of_mem d h2, h3⟩

/-- Collapsing underscore runs yields no two adjacent underscores, and
when started inside a run the output never begins with an underscore. -/
theorem collapseRuns_us_chain (l : List Char) :
    ∀ b : Bool,
      List.Chain' (fun x y : Char => ¬(x = '_' ∧ y = '_'))
        (collapseRuns (fun c => c = '_') l b) ∧
      ((collapseRuns (fun c => c = '_') l b).head? = some '_' → b = false) := by
  induction l with
  | nil =>
    intro b
    refine ⟨by simp [collapseRuns], ?_⟩
    intro h
    simp [collapseRuns] at h
  | cons d ds ih =>
    intro b
    by_cases hd : d = '_'
    · subst hd
      cases b with
      | true =>
        rw [show collapseRuns (fun c => c = '_') ('_' :: ds) true
            = collapseRuns (fun c => c = '_') ds true from by simp [collapseRuns]]
        exact ih true
      | false =>
        rw [show collapseRuns (fun c => c = '_') ('_' :: ds) false
            = '_' :: collapseRuns (fun c => c = '_') ds true from by
          simp [collapseRuns]]
        constructor
        · rw [List.chain'_cons']
          refine ⟨?_, (ih true).1⟩
          intro y hy hcon
          have hhead : (collapseRuns (fun c => c = '_') ds true).head? = some '_' := by
            have h1 : (collapseRuns (fun c => c = '_') ds true).head? = some y := hy
            rw [h1, hcon.2]
          have hbad := (ih true).2 hhead
          cases hbad
        · intro _
          rfl
    · rw [show collapseRuns (fun c => c = '_') (d :: ds) b
          = d :: collapseRuns (fun c => c = '_') ds false from by
        simp [collapseRuns, hd]]
      constructor
      · rw [List.chain'_cons']
        refine ⟨?_, (ih false).1⟩
        intro y hy hcon
        exact hd hcon.1
      · intro hh
        rw [List.head?_cons] at hh
        exact absurd (Option.some.inj hh) hd

/-- Chains on adjacent pairs are preserved by `take`. -/
theorem chain_take (R : Char → Char → Prop) (l : List Char) :
    ∀ n : Nat, List.Chain' R l → List.Chain' R (l.take n) := by
  induction l with
  | nil =>
    intro n h
    simpa using h
  | cons d ds ih =>
    intro n h
    cases n with
    | zero => simp
    | succ m =>
      rw [List.take_succ_cons]
      rw [List.chain'_cons'] at h ⊢
      refine ⟨?_, ih m h.2⟩
      intro y hy
      apply h.1
      cases ds with
      | nil => simp at hy
      | cons e es =>
        cases m with
        | zero => simp at hy
        | succ k =>
          rw [List.take_succ_cons] at hy
          rw [List.head?_cons] at hy ⊢
          exact hy

/-- Chains on adjacent pairs are preserved by `dropWhile`. -/
theorem chain_dropWhile (R : Char → Char → Prop) (p : Char → Bool) :
    ∀ l : List Char, List.Chain' R l → List.Chain' R (l.dropWhile p) := by
  intro l
  induction l with
  | nil =>
    intro h
    simpa using h
  | cons d ds ih =>
    intro h
    cases hd : p d with
    | true =>
      rw [List.dropWhile_cons_of_pos hd]
      exact ih (List.chain'_cons'.mp h).2
    | false =>
      rw [List.dropWhile_cons_of_neg (by simp [hd])]
      exact h

/-- The head surviving `dropWhile p` does not satisfy `p`. -/
theorem head_dropWhile (p : Char → Bool) :
    ∀ (l : List Char) (c : Char), (l.dropWhile p).head? = some c → p c = false := by
  intro l
  induction l with
  | nil =>
    intro c h
    simp at h
  | cons d ds ih =>
    intro c h
    cases hd : p d with
    | true =>
      rw [List.dropWhile_cons_of_pos hd] at h
      exact ih c h
    | false =>
      rw [List.dropWhile_cons_of_neg (by simp [hd])] at h
      rw [List.head?_cons] at h
      rw [← Option.some.inj h]
      exact hd

/-- A `dropWhile` keeps the last element unless it drops everything. -/
theorem getLast_dropWhile (p : Char → Bool) :
    ∀ l : List Char, (l.dropWhile p).getLast? = l.getLast? ∨ l.dropWhile p = [] := by
  intro l
  induction l with
  | nil => exact Or.inr rfl
  | cons d ds ih =>
    cases hd : p d with
    | true =>
      rw [List.dropWhile_cons_of_pos hd]
      cases ds with
      | nil => exact Or.inr rfl
      | cons e es =>
        rcases ih with h | h
        · left
          rw [List.getLast?_cons_cons]
          exact h
        · exact Or.inr h
    | false =>
      rw [List.dropWhile_cons_of_neg (by simp [hd])]
      exact Or.inl rfl

/-- Characters surviving `replaceInvalid` are outside the invalid
class. -/
theorem replaceInvalid_mem (l : List Char) (c : Char) (h : c ∈ replaceInvalid l) :
    invalidFilenameChar c = false := by
  unfold replaceInvalid at h
  rcases List.mem_map.mp h with ⟨d, _, hd⟩
  cases hi : invalidFilenameChar d with
  | true =>
    rw [if_pos hi] at hd
    rw [← hd]
    decide
  | false =>
    rw [if_neg (by simp [hi])] at hd
    rw [← hd]
    exact hi

theorem truncate200_subset (l : List Char) : truncate200 l ⊆ l := by
  unfold truncate200
  split_ifs
  · exact List.take_subset _ _
  · exact fun _ h => h

theorem truncate200_length (l : List Char) : (truncate200 l).length ≤ 200 := by
  unfold truncate200
  split_ifs with h
  · rw [List.length_take]
    omega
  · omega

theorem stripUnderscores_subset (l : List Char) : stripUnderscores l ⊆ l := by
  intro c h
  unfold stripUnderscores at h
  rw [List.mem_reverse] at h
  have h' := (List.dropWhile_sublist _).subset h
  rw [List.mem_reverse] at h'
  exact (List.dropWhile_sublist _).subset h'

theorem stripUnderscores_length (l : List Char) :
    (stripUnderscores l).length ≤ l.length := by
  unfold stripUnderscores
  rw [List.length_reverse]
  calc ((l.dropWhile fun c => c = '_').reverse.dropWhile fun c => c = '_').length
      ≤ (l.dropWhile fun c => c = '_').reverse.length :=
        (List.dropWhile_sublist _).length_le
    _ = (l.dropWhile fun c => c = '_').length := List.length_reverse _
    _ ≤ l.length := (List.dropWhile_sublist _).length_le

/-- Symmetric adjacency chains survive the double-ended strip. -/
theorem chain_stripUnderscores (R : Char → Char → Prop)
    (hsym : ∀ a b, R a b → R b a) (l : List Char) (p : Char → Bool)
    (h : List.Chain' R l) :
    List.Chain' R (((l.dropWhile p).reverse.dropWhile p).reverse) := by
  have h5 := chain_dropWhile R p l h
  have h6 := (List.chain'_reverse).mpr
    (List.Chain'.imp (fun a b hab => hsym a b hab) h5)
  have h7 := chain_dropWhile R p _ h6
  exact (List.chain'_reverse).mpr
    (List.Chain'.imp (fun a b hab => hsym a b hab) h7)

/-- Every character of a sanitized filename is outside the invalid class
and is not whitespace. -/
theorem sanitize_filename_chars (filename : String) (c : Char)
    (h : c ∈ (sanitize_filename filename).data) :
    invalidFilenameChar c = false ∧ pyIsSpace c = false := by
  have h0 : c ∈ stripUnderscores (truncate200 (collapseRuns (fun c => c = '_')
      (collapseRuns pyIsSpace (replaceInvalid filename.data) false) false)) := h
  have h1 := truncate200_subset _ (stripUnderscores_subset _ h0)
  rcases collapseRuns_mem (fun c => c = '_') _ false c h1 with h2 | ⟨h2, _⟩
  · subst h2
    exact ⟨by decide, by decide⟩
  · rcases collapseRuns_mem pyIsSpace _ false c h2 with h3 | ⟨h3, hsp⟩
    · subst h3
      exact ⟨by decide, by decide⟩
    · exact ⟨replaceInvalid_mem _ c h3, hsp⟩

/-- A sanitized filename has no two adjacent underscores. -/
theorem sanitize_filename_chain (filename : String) :
    List.Chain' (fun x y : Char => ¬(x = '_' ∧ y = '_'))
      (sanitize_filename filename).data := by
  have hc3 := (collapseRuns_us_chain
    (collapseRuns pyIsSpace (replaceInvalid filename.data) false) false).1
  have hc4 : List.Chain' (fun x y : Char => ¬(x = '_' ∧ y = '_'))
      (truncate200 (collapseRuns (fun c => c = '_')
        (collapseRuns pyIsSpace (replaceInvalid filename.data) false) false)) := by
    unfold truncate200
    split_ifs
    · exact chain_take _ _ _ hc3
    · exact hc3
  exact chain_stripUnderscores _ (fun a b hab hc => hab ⟨hc.2, hc.1⟩) _ _ hc4

/-- A sanitized filename does not start with an underscore. -/
theorem sanitize_head_ne (l : List Char) :
    ¬ ((stripUnderscores l).head? = some '_') := by
  intro h
  unfold stripUnderscores at h
  rw [List.head?_reverse] at h
  rcases getLast_dropWhile (fun c => c = '_')
      ((l.dropWhile fun c => c = '_').reverse) with hg | hg
  · rw [hg] at h
    rw [List.getLast?_reverse] at h
    have hbad := head_dropWhile (fun c => c = '_') l '_' h
    exact absurd hbad (by decide)
  · rw [hg] at h
    simp at h

/-- A sanitized filename does not end with an underscore. -/
theorem sanitize_last_ne (l : List Char) :
    ¬ ((stripUnderscores l).getLast? = some '_') := by
  intro h
  unfold stripUnderscores at h
  rw [List.getLast?_reverse] at h
  have hbad := head_dropWhile (fun c => c = '_') _ '_' h
  exact absurd hbad (by decide)

/-- C10: for every input, `sanitize_filename` returns at most 200
characters, none of them in the invalid class `<>:"/\|?*` and none of
them whitespace, with no two adjacent underscores, and the result
neither starts nor ends with an underscore. -/
theorem claim_C10_sanitize_filename (filename : String) :
    (sanitize_filename filename).length ≤ 200 ∧
    ((sanitize_filename filename).data.all
      (fun c => !(invalidFilenameChar c || pyIsSpace c))) = true ∧
    List.Chain' (fun x y : Char => ¬(x = '_' ∧ y = '_'))
      (sanitize_filename filename).data ∧
    decide ((sanitize_filename filename).data.head? = some '_') = false ∧
    decide ((sanitize_filename filename).data.getLast? = some '_') = false := by
  refine ⟨?_, ?_, sanitize_filename_chain filename, ?_, ?_⟩
  · exact le_trans (stripUnderscores_length _) (truncate200_length _)
  · rw [List.all_eq_true]
    intro x hx
    rcases sanitize_filename_chars filename x hx with ⟨h1, h2⟩
    rw [h1, h2]
    rfl
  · exact decide_eq_false (sanitize_head_ne _)
  · exact decide_eq_false (sanitize_last_ne _)

theorem claim_C10_sanitize_filename_witness :
    (sanitize_filename "report: <draft>??  v2 .pdf").length ≤ 200 ∧
    ((sanitize_filename "report: <draft>??  v2 .pdf").data.all
      (fun c => !(invalidFilenameChar c || pyIsSpace c))) = true ∧
    List.Chain' (fun x y : Char => ¬(x = '_' ∧ y = '_'))
      (sanitize_filename "report: <draft>??  v2 .pdf").data ∧
    decide ((sanitize_filename "report: <draft>??  v2 .pdf").data.head?
      = some '_') = false ∧
    decide ((sanitize_filename "report: <draft>??  v2 .pdf").data.getLast?
      = some '_') = false :=
  claim_C10_sanitize_filename "report: <draft>??  v2 .pdf"

end SuperCPE
